import Mathlib

/-!
Verification of the WatchTurm control-room snapshot pipeline
(`MVP1/snapshot/snapshot.py` and `MVP1/snapshot/file_utils.py`).

The Python code is shallowly embedded: each modelled Python function becomes
an executable Lean definition of the same name (underscores dropped where the
source name starts with one, keywords suffixed with `_`).  Python dicts with a
fixed key set become structures with `Option` fields (a missing key is `none`),
machine floats that only ever carry exact decimal data are modelled as `ℚ`,
timestamps are the ISO strings the code itself compares lexicographically, and
outbound HTTP calls become explicit oracle arguments.
-/

namespace WatchTurm

/-- Whether `needle` occurs as a contiguous sublist of the second argument. -/
def listContains (needle : List Char) : List Char → Bool
  | [] => needle.isEmpty
  | c :: cs => needle.isPrefixOf (c :: cs) || listContains needle cs

/-- Python `needle in hay` substring test, decided on the character lists. -/
def strContains (hay needle : String) : Bool :=
  listContains needle.toList hay.toList

/-- Python `str.strip()` with no argument: drop leading and trailing
whitespace.  (Python also strips a few rarer Unicode space characters; the
inputs modelled here only ever carry ASCII whitespace.) -/
def pyStrip (s : String) : String :=
  String.mk (((s.toList.dropWhile Char.isWhitespace).reverse.dropWhile
    Char.isWhitespace).reverse)

/-- Python `str.lower()`; ASCII case folding, which covers every modelled
input. -/
def pyLower (s : String) : String :=
  String.mk (s.toList.map Char.toLower)

/-- Lexicographic `<` on character lists, by code point. -/
def charListLt : List Char → List Char → Bool
  | [], [] => false
  | [], _ :: _ => true
  | _ :: _, [] => false
  | a :: as, b :: bs =>
    if a < b then true else if b < a then false else charListLt as bs

/-- Python `a < b` on strings: lexicographic comparison by code point. -/
def strLt (a b : String) : Bool :=
  charListLt a.toList b.toList

/-! ## C5 — stage derivation (`_env_to_stage`, snapshot.py:1439) -/

/-- Embedding of `_env_to_stage`: map an environment name to DEV/QA/UAT/PROD.
Mirrors the source order: empty → DEV, `prod` substring → PROD, `uat`
substring → UAT, `qa` substring or the exact name `green` → QA, else DEV. -/
def env_to_stage (envName : String) : String :=
  let n := pyLower (pyStrip envName)
  if n = "" then "DEV"
  else if strContains n "prod" then "PROD"
  else if strContains n "uat" then "UAT"
  else if n = "qa" || strContains n "qa" || n = "green" then "QA"
  else "DEV"

/-- The stage rule exactly as the spec sentence words it ("case-insensitive
substring match in order prod → PROD, uat → UAT, qa|green → QA, else DEV"):
`green` is a substring match here, unlike in the source. -/
def specStageRuleC5 (envName : String) : String :=
  let n := pyLower (pyStrip envName)
  if strContains n "prod" then "PROD"
  else if strContains n "uat" then "UAT"
  else if strContains n "qa" || strContains n "green" then "QA"
  else "DEV"

/-- The amended stage rule: as the spec words it, except that `green` selects
QA only by exact (trimmed, lowercased) equality, not by substring. -/
def amendedStageRuleC5 (envName : String) : String :=
  let n := pyLower (pyStrip envName)
  if strContains n "prod" then "PROD"
  else if strContains n "uat" then "UAT"
  else if strContains n "qa" || n = "green" then "QA"
  else "DEV"

/-- Python `s.startswith(pre)`. -/
def pyStartswith (s pre : String) : Bool :=
  pre.toList.isPrefixOf s.toList

/-! ## C2 — time-aware PR → branch correlation
(`correlate_prs_with_branches_time_aware`, snapshot.py:1910-1977) -/

/-- A merged pull request, restricted to the fields the correlator reads. -/
structure PullReq where
  repo : String := ""
  mergedAt : String := ""
  mergeSha : String := ""
deriving DecidableEq, Repr

/-- One branch record as listed from the VCS. -/
structure BranchInfo where
  name : String := ""
  createdAt : String := ""
  sha : String := ""
deriving DecidableEq, Repr

/-- One correlated-branch entry as appended by the correlator. -/
structure CorrelatedBranch where
  branch : String
  createdAt : String
  sha : String
  prMergedAt : String
deriving DecidableEq, Repr

/-- Embedding of `_parse_iso_safe` with the library datetime parse abstracted
to an oracle: a falsy (empty) input yields `None`, otherwise the parse
decides.  Parsed timestamps are modelled as integers under the usual order,
matching the code's comparison of timezone-aware datetimes. -/
def parse_iso_safe (parse : String → Option Int) (s : String) : Option Int :=
  if s = "" then none else parse s

/-- The inner-loop body of `correlate_prs_with_branches_time_aware` for one
branch, given the PR's stripped `mergeSha`/`mergedAt` and parsed merge time:
exclude on missing/unparsable `createdAt` (fail closed), exclude when the
branch was created before the merge, attach on tip equality, and otherwise
attach important branches (`main`, `master`, `release/*`) only when the
reachability check `reach` (modelling `github_check_commit_in_branch`;
`none` models a raised exception) returns `True`. -/
def branchDecision (parse : String → Option Int) (reach : String → String → Option Bool)
    (merge_sha merged_at : String) (merged_dt : Int) (branch_info : BranchInfo) :
    Option CorrelatedBranch :=
  let branch_name := pyStrip branch_info.name
  let branch_created_at := pyStrip branch_info.createdAt
  match parse_iso_safe parse branch_created_at with
  | none => none
  | some branch_created_dt =>
    if branch_created_dt < merged_dt then none
    else
      let branch_sha := pyStrip branch_info.sha
      if branch_sha = merge_sha then
        some ⟨branch_name, branch_created_at, branch_sha, merged_at⟩
      else if pyStartswith branch_name "release/" || branch_name = "main" ||
          branch_name = "master" then
        match reach merge_sha branch_name with
        | some true => some ⟨branch_name, branch_created_at, branch_sha, merged_at⟩
        | _ => none
      else none

/-- The outer-loop body of `correlate_prs_with_branches_time_aware` for one
PR: skip the PR when its `mergeSha` or parsed `mergedAt` is missing (fail
closed), else test every branch. -/
def branchesForPR (parse : String → Option Int) (reach : String → String → Option Bool)
    (pr : PullReq) (repo_branches : List BranchInfo) : List CorrelatedBranch :=
  let merge_sha := pyStrip pr.mergeSha
  let merged_at := pyStrip pr.mergedAt
  match parse_iso_safe parse merged_at with
  | none => []
  | some merged_dt =>
    if merge_sha = "" then []
    else repo_branches.filterMap (branchDecision parse reach merge_sha merged_at merged_dt)

/-- Embedding of `correlate_prs_with_branches_time_aware`. -/
def correlate_prs_with_branches_time_aware (parse : String → Option Int)
    (reach : String → String → Option Bool) (prs : List PullReq)
    (repo_branches : List BranchInfo) : List CorrelatedBranch :=
  if prs.isEmpty || repo_branches.isEmpty then []
  else prs.flatMap (fun pr => branchesForPR parse reach pr repo_branches)

/-! ## C3 helpers — tag and key normalization
(`normalize_tag`/`extract_build_number`, snapshot.py:2653-2676;
`_normalize_env_key`, snapshot.py:237-254; `_extract_commit_sha`,
snapshot.py:2968-2979) -/

/-- `re.sub(r"^v\.(?=\d)", "v", t)`: drop the dot of a leading `v.` that is
followed by a digit (anchored, so at most one replacement). -/
def stripVDot (cs : List Char) : List Char :=
  match cs with
  | 'v' :: '.' :: c :: rest => if c.isDigit then 'v' :: c :: rest else cs
  | _ => cs

/-- Helper for `subDashVDot`, structurally recursive on a fuel bounding the
input length. -/
def subDashVDotAux : Nat → List Char → List Char
  | _, [] => []
  | 0, l => l
  | fuel + 1, c0 :: rest0 =>
    match c0, rest0 with
    | '-', 'v' :: '.' :: c :: rest =>
      if c.isDigit then '-' :: 'v' :: subDashVDotAux fuel (c :: rest)
      else '-' :: subDashVDotAux fuel rest0
    | _, _ => c0 :: subDashVDotAux fuel rest0

/-- `re.sub(r"-v\.(?=\d)", "-v", t)`: drop the dot of every `-v.` that is
followed by a digit, scanning left to right. -/
def subDashVDot (l : List Char) : List Char :=
  subDashVDotAux l.length l

/-- Embedding of `normalize_tag`: `v.X.Y.Z → vX.Y.Z` and `-v.X → -vX` after
stripping.  (ASCII digits; the modelled tags are ASCII.) -/
def normalize_tag (tag : String) : String :=
  if tag = "" then ""
  else String.mk (subDashVDot (stripVDot (pyStrip tag).toList))

/-- Embedding of `extract_build_number`: the final numeric group of
`v\d+\.\d+\.(\d+)$` on the normalized tag, else `""`.  The regex search is
realised by reading the string from the end: maximal trailing digits, a dot,
digits, a dot, digits, and a `v` directly before them. -/
def extract_build_number (tag : String) : String :=
  let t := normalize_tag tag
  if t = "" then ""
  else
    let cs := t.toList.reverse
    let d3 := cs.takeWhile Char.isDigit
    let r1 := cs.dropWhile Char.isDigit
    if d3.isEmpty then ""
    else
      match r1 with
      | '.' :: r2 =>
        let d2 := r2.takeWhile Char.isDigit
        let r3 := r2.dropWhile Char.isDigit
        if d2.isEmpty then ""
        else
          match r3 with
          | '.' :: r4 =>
            let d1 := r4.takeWhile Char.isDigit
            let r5 := r4.dropWhile Char.isDigit
            if d1.isEmpty then ""
            else
              match r5 with
              | 'v' :: _ => String.mk d3.reverse
              | _ => ""
          | _ => ""
      | _ => ""

/-- Embedding of `_normalize_env_key`: falsy → `None`, else strip; empty
after stripping → `None`, else lowercase. -/
def normalize_env_key (key : String) : Option String :=
  if key = "" then none
  else
    let k := pyStrip key
    if k = "" then none else some (pyLower k)

/-- Python `s.rstrip('/')`. -/
def pyRstripSlash (s : String) : String :=
  String.mk (s.toList.reverse.dropWhile (fun c => c = '/')).reverse

/-- Python `s.split('/')` (keeps empty fields; `""` splits to `[""]`). -/
def splitOnSlash : List Char → List (List Char)
  | [] => [[]]
  | c :: rest =>
    let r := splitOnSlash rest
    if c = '/' then [] :: r
    else
      match r with
      | g :: gs => (c :: g) :: gs
      | [] => [[c]]

/-- Embedding of `_extract_commit_sha`: the path segment after `commit`, the
last segment as a fallback. -/
def extract_commit_sha (commit_url : String) : String :=
  if commit_url = "" then ""
  else
    let parts := (splitOnSlash (pyRstripSlash commit_url).toList).map String.mk
    match parts.findIdx? (fun p => p = "commit") with
    | some i => if i + 1 < parts.length then parts.getD (i + 1) "" else parts.getLastD ""
    | none => parts.getLastD ""

/-! ## C1 — ticket environment-presence persistence floor
(`add_env_presence_to_ticket_index`, snapshot.py:1816-1840;
`merge_deployment_presence`, snapshot.py:4112-4165) -/

/-- The four canonical deployment stages, the keys of the `envPresence` and
`envPresenceMeta` dicts. -/
inductive Stage where
  | DEV
  | QA
  | UAT
  | PROD
deriving DecidableEq, Repr

/-- `stage_order = ["DEV", "QA", "UAT", "PROD"]`. -/
def stage_order : List Stage := [.DEV, .QA, .UAT, .PROD]

/-- One `envPresenceMeta` entry: a Python dict whose possible keys are the
union of those written by the heuristic, time-aware, history and
carry-forward paths; a missing key is `none`. -/
structure MetaEntry where
  when : Option String := none
  repo : Option String := none
  tag : Option String := none
  branch : Option String := none
  build : Option String := none
  component : Option String := none
  confidence : Option String := none
  source : Option String := none
  inferred : Option Bool := none
  warning : Option String := none
deriving DecidableEq, Repr

/-- Whether the dict is empty (Python `{}`; falsy). -/
def MetaEntry.isEmptyDict (m : MetaEntry) : Bool :=
  m.when.isNone && m.repo.isNone && m.tag.isNone && m.branch.isNone && m.build.isNone &&
    m.component.isNone && m.confidence.isNone && m.source.isNone && m.inferred.isNone &&
    m.warning.isNone

/-- Python truthiness of `presence_meta.get(stage)`: `None` and `{}` are
falsy. -/
def metaTruthy (o : Option MetaEntry) : Bool :=
  match o with
  | none => false
  | some m => !m.isEmptyDict

/-- `carried = dict(pm)` followed by the three `setdefault` calls of the
persistence-floor block: `source`, `confidence` and `warning` are only
defaulted when the copied entry does not already carry them. -/
def carry_forward_meta (pm : MetaEntry) : MetaEntry :=
  { pm with
    source := some (pm.source.getD "persisted_prev_snapshot"),
    confidence := some (pm.confidence.getD "persisted"),
    warning := some (pm.warning.getD "Deployment carried forward from previous snapshot.") }

/-- Functional update of a per-stage map at one stage. -/
def setStage {α : Type} (f : Stage → α) (stage : Stage) (v : α) : Stage → α :=
  fun s => if s = stage then v else f s

/-- One iteration of the persistence-floor loop of
`add_env_presence_to_ticket_index` for one stage: when the previous
snapshot's presence is `True` and the current one's is not, set presence and,
if the current run recorded no (truthy) metadata for the stage, carry the
previous snapshot's non-empty metadata entry forward with the `setdefault`
fields. -/
def floor_step (prevPresent : Stage → Bool) (prevMeta : Stage → Option MetaEntry)
    (st : (Stage → Bool) × (Stage → Option MetaEntry)) (stage : Stage) :
    (Stage → Bool) × (Stage → Option MetaEntry) :=
  if prevPresent stage && !(st.1 stage) then
    (setStage st.1 stage true,
     if metaTruthy (st.2 stage) then st.2
     else
       match prevMeta stage with
       | some pm =>
         if !pm.isEmptyDict then setStage st.2 stage (some (carry_forward_meta pm))
         else st.2
       | none => st.2)
  else st

/-- The persistence-floor block (snapshot.py:1816-1840) for one ticket:
iterate `stage_order`, carrying forward every stage that was `True` in the
previous snapshot's `envPresence` unless the current run already set it.
`prevPresent s` models `prev_presence.get(s) is True`; `presence` and
`presence_meta` are the current run's values just before the block. -/
def apply_persistence_floor (prevPresent : Stage → Bool)
    (prevMeta : Stage → Option MetaEntry) (presence : Stage → Bool)
    (presence_meta : Stage → Option MetaEntry) :
    (Stage → Bool) × (Stage → Option MetaEntry) :=
  stage_order.foldl (floor_step prevPresent prevMeta) (presence, presence_meta)

/-- The per-ticket `envPresence`/`envPresenceMeta` pair handled by
`merge_deployment_presence`. -/
structure TicketPresence where
  envPresence : Stage → Bool
  envPresenceMeta : Stage → Option MetaEntry

/-- The per-stage body of the merge loop of `merge_deployment_presence`:
current snapshot presence takes precedence, historical presence fills gaps,
default `(False, None)`. -/
def merge_presence_stage (current historical : TicketPresence) (stage : Stage) :
    Bool × Option MetaEntry :=
  if current.envPresence stage then (true, current.envPresenceMeta stage)
  else if historical.envPresence stage then (true, historical.envPresenceMeta stage)
  else (false, none)

/-- Embedding of `merge_deployment_presence` for one ticket key. -/
def merge_deployment_presence (current historical : TicketPresence) : TicketPresence :=
  { envPresence := fun s => (merge_presence_stage current historical s).1,
    envPresenceMeta := fun s => (merge_presence_stage current historical s).2 }

/-- The previous-snapshot metadata of the C1 counterexample: the QA entry was
written by the time-aware path and therefore already carries a `source`. -/
def c1PrevMeta : Stage → Option MetaEntry := fun s =>
  match s with
  | .QA => some { when := some "2026-01-01T00:00:00Z", tag := some "svc-v0.0.10",
                  confidence := some "high", source := some "time_aware_build" }
  | _ => none

/-! ## C4 — HTTP retry core (`_api_request_with_retry`, snapshot.py:44-145) -/

/-- Python `str.upper()`; ASCII, which covers the modelled method names. -/
def pyUpper (s : String) : String :=
  String.mk (s.toList.map Char.toUpper)

/-- Interpret a non-empty all-digit character list as a natural number. -/
def digitsToNat (cs : List Char) : Option Nat :=
  if !cs.isEmpty && cs.all Char.isDigit then
    some (cs.foldl (fun n c => 10 * n + (c.toNat - 48)) 0)
  else none

/-- Python `int(s)` restricted to optionally signed decimal integer literals
(the only shapes the modelled header values take); whitespace is stripped
first, anything else raises, i.e. yields `none`. -/
def pyParseInt (s : String) : Option Int :=
  match (pyStrip s).toList with
  | '+' :: cs => (digitsToNat cs).map Int.ofNat
  | '-' :: cs => (digitsToNat cs).map (fun n => -(n : Int))
  | cs => (digitsToNat cs).map Int.ofNat

/-- Python `float(s)` restricted to optionally signed decimal literals with
an optional fractional part (`"12"`, `"1.5"`, `"1."`, `".5"`); whitespace is
stripped first.  Exponent, infinity and NaN forms, which no modelled header
ever carries, yield `none`. -/
def pyParseFloat (s : String) : Option ℚ :=
  let withSign : Int → List Char → Option ℚ := fun sign cs =>
    let intPart := cs.takeWhile (fun c => c ≠ '.')
    let rest := cs.dropWhile (fun c => c ≠ '.')
    match rest with
    | [] =>
      (digitsToNat intPart).map (fun n => (sign * n : Int))
    | '.' :: frac =>
      if intPart.isEmpty && frac.isEmpty then none
      else if !intPart.all Char.isDigit || !frac.all Char.isDigit then none
      else
        let n : Nat := (digitsToNat intPart).getD 0
        let f : Nat := (digitsToNat frac).getD 0
        some ((sign : ℚ) * ((n : ℚ) + (f : ℚ) / (10 : ℚ) ^ frac.length))
    | _ => none
  match (pyStrip s).toList with
  | '+' :: cs => withSign 1 cs
  | '-' :: cs => withSign (-1) cs
  | cs => withSign 1 cs

/-- What one attempt's `requests.get/post` call produces: a timeout, a
connection error, some other raised exception, or a response with a status
code and the two headers the retry core reads. -/
inductive HttpOutcome where
  | timeout
  | connError
  | raised
  | resp (status : Nat) (retryAfter : Option String) (rateRemaining : Option String)
deriving DecidableEq, Repr

/-- How `_api_request_with_retry` can fail: re-raising the last network
error/exception, the `raise_for_status` HTTPError of the final attempt, or
the unreachable fall-through `RuntimeError` (possible only with zero
retries). -/
inductive ApiError where
  | timeout
  | connError
  | raised
  | httpStatus (status : Nat)
  | exhausted
deriving DecidableEq, Repr

/-- The keyword arguments of `_api_request_with_retry`.  Backoff seconds are
exact rationals. -/
structure RetryCfg where
  max_retries : Nat := 3
  initial_backoff : ℚ := 1
  max_backoff : ℚ := 60
deriving DecidableEq, Repr

/-- The sleeps caused by the `X-RateLimit-Remaining` header check: a truthy
header that parses as an int below 5 sleeps 1 s, below 10 sleeps 0.5 s;
missing, falsy or unparsable headers cause no sleep. -/
def rate_limit_sleeps (rateRemaining : Option String) : List ℚ :=
  match rateRemaining with
  | none => []
  | some rr =>
    if rr = "" then []
    else
      match pyParseInt rr with
      | none => []
      | some remaining =>
        if remaining < 10 then (if remaining < 5 then [1] else [1/2]) else []

/-- The retry loop of `_api_request_with_retry`, structurally recursive on
the remaining iterations (`fuel`; the loop starts with `fuel = max_retries`
and `attempt = 0`, and `fuel = 0` inside an iteration marks the last
attempt).  The result pairs the returned status (or raised error) with the
ordered list of sleep durations performed.  `outcomes n` is what the
request call of attempt `n` produces. -/
def api_request_attempts (cfg : RetryCfg) (outcomes : Nat → HttpOutcome) (method : String)
    (attempt : Nat) : Nat → Except ApiError Nat × List ℚ
  | 0 => (.error .exhausted, [])
  | fuel + 1 =>
    if pyUpper method = "GET" ∨ pyUpper method = "POST" then
      match outcomes attempt with
      | .timeout =>
        if fuel = 0 then (.error .timeout, [])
        else
          let r := api_request_attempts cfg outcomes method (attempt + 1) fuel
          (r.1, min (cfg.initial_backoff * 2 ^ attempt) cfg.max_backoff :: r.2)
      | .connError =>
        if fuel = 0 then (.error .connError, [])
        else
          let r := api_request_attempts cfg outcomes method (attempt + 1) fuel
          (r.1, min (cfg.initial_backoff * 2 ^ attempt) cfg.max_backoff :: r.2)
      | .raised =>
        if fuel = 0 then (.error .raised, [])
        else
          let r := api_request_attempts cfg outcomes method (attempt + 1) fuel
          (r.1, min (cfg.initial_backoff * 2 ^ attempt) cfg.max_backoff :: r.2)
      | .resp status retryAfter rateRemaining =>
        let pre := rate_limit_sleeps rateRemaining
        if status = 429 then
          let wait :=
            match retryAfter with
            | some ra =>
              if ra ≠ "" then
                match pyParseFloat ra with
                | some w => w
                | none => cfg.initial_backoff * 2 ^ attempt
              else min (cfg.initial_backoff * 2 ^ attempt) cfg.max_backoff
            | none => min (cfg.initial_backoff * 2 ^ attempt) cfg.max_backoff
          if fuel = 0 then (.error (.httpStatus 429), pre)
          else
            let r := api_request_attempts cfg outcomes method (attempt + 1) fuel
            (r.1, pre ++ wait :: r.2)
        else if 500 ≤ status ∧ status < 600 then
          if fuel = 0 then (.error (.httpStatus status), pre)
          else
            let r := api_request_attempts cfg outcomes method (attempt + 1) fuel
            (r.1, pre ++ min (cfg.initial_backoff * 2 ^ attempt) cfg.max_backoff :: r.2)
        else (.ok status, pre)
    else
      if fuel = 0 then (.error .raised, [])
      else
        let r := api_request_attempts cfg outcomes method (attempt + 1) fuel
        (r.1, min (cfg.initial_backoff * 2 ^ attempt) cfg.max_backoff :: r.2)

/-- Embedding of `_api_request_with_retry`. -/
def api_request_with_retry (cfg : RetryCfg) (outcomes : Nat → HttpOutcome)
    (method : String) : Except ApiError Nat × List ℚ :=
  api_request_attempts cfg outcomes method 0 cfg.max_retries

/-- The request outcomes of the C4 scenario: the first attempt gets a 429
with the non-numeric header `Retry-After: soon`, the second a 200. -/
def c4Outcomes : Nat → HttpOutcome := fun n =>
  if n = 0 then .resp 429 (some "soon") none else .resp 200 none none

/-! ## C8 — candidate-mode observability
(`datadog_collect_observability`, snapshot.py:617-663; `_dd_norm_pct`,
snapshot.py:414-424) -/

/-- Helper for `listReplace`, structurally recursive on a fuel that bounds
the input length (each step consumes at least one character). -/
def listReplaceAux (old new : List Char) : Nat → List Char → List Char
  | _, [] => []
  | 0, l => l
  | fuel + 1, c :: cs =>
    if old.isPrefixOf (c :: cs) then
      new ++ listReplaceAux old new fuel (cs.drop (old.length - 1))
    else c :: listReplaceAux old new fuel cs

/-- Python `str.replace(old, new)` on character lists: replace every
non-overlapping occurrence of `old`, scanning left to right.  Only ever used
with a non-empty `old`. -/
def listReplace (old new l : List Char) : List Char :=
  listReplaceAux old new l.length l

/-- Python `s.replace(old, new)` on strings. -/
def pyReplace (s old new : String) : String :=
  String.mk (listReplace old.toList new.toList s.toList)

/-- `_dd_norm_pct`: scale a 0..1.5 fraction to a percentage, pass anything
else through.  The float is carried as an exact rational. -/
def dd_norm_pct (v : ℚ) : ℚ :=
  if 0 ≤ v ∧ v ≤ 3/2 then v * 100 else v

/-- `_dd_norm_duration_ms`: treat 0..50 as seconds and convert to ms. -/
def dd_norm_duration_ms (v : ℚ) : ℚ :=
  if 0 ≤ v ∧ v ≤ 50 then v * 1000 else v

/-- `_dd_join_tags`: strip each tag, drop empties, join with commas. -/
def dd_join_tags (tags : List String) : String :=
  String.intercalate "," ((tags.map pyStrip).filter (fun t => t ≠ ""))

/-- The five fixed query templates of `metric_specs`, in dict order. -/
def dd_cpu_query : String := "avg:system.cpu.user\x7b$tags\x7d"

def dd_mem_query : String := "avg:system.mem.used_pct\x7b$tags\x7d"

def dd_pods_query : String := "sum:kubernetes.pods.running\x7b$tags\x7d"

def dd_err_query : String :=
  "100 * (sum:trace.http.request.errors\x7b$tags\x7d.as_count() / sum:trace.http.request.hits\x7b$tags\x7d.as_count())"

def dd_p95_query : String := "p95:trace.http.request.duration\x7b$tags\x7d"

/-- `spec["query"].replace("{$tags}", "{…}" if tags_str else "")`. -/
def dd_apply_tags (template tags_str : String) : String :=
  pyReplace template "\x7b$tags\x7d"
    (if tags_str = "" then "" else "\x7b" ++ tags_str ++ "\x7d")

/-- One `datadog_query_timeseries` call for one metric spec: the oracle `ddq`
returns the `(value, reason)` pair of the HTTP layer; the value is kept
(normalized) iff the reason is `"ok"` and the value is numeric. -/
def dd_query_metric (ddq : String → Option ℚ × String) (tags_str template : String)
    (norm : ℚ → ℚ) : Option ℚ × String :=
  match ddq (dd_apply_tags template tags_str) with
  | (some v, reason) => if reason = "ok" then (some (norm v), reason) else (none, reason)
  | (none, reason) => (none, reason)

/-- The five collected metrics of one environment. -/
structure DDMetrics where
  cpuPct : Option ℚ := none
  memPct : Option ℚ := none
  pods : Option ℚ := none
  errorRatePct : Option ℚ := none
  p95ms : Option ℚ := none
deriving DecidableEq, Repr

/-- The per-metric reasons recorded in `meta.reasons`. -/
structure DDReasons where
  cpuPct : String
  memPct : String
  pods : String
  errorRatePct : String
  p95ms : String
deriving DecidableEq, Repr

/-- The inner loop over `metric_specs` for one tag set, producing the metric
values and reasons in dict order. -/
def dd_run_specs (ddq : String → Option ℚ × String) (tags_str : String) :
    DDMetrics × DDReasons :=
  let c := dd_query_metric ddq tags_str dd_cpu_query dd_norm_pct
  let m := dd_query_metric ddq tags_str dd_mem_query dd_norm_pct
  let p := dd_query_metric ddq tags_str dd_pods_query (fun x => x)
  let e := dd_query_metric ddq tags_str dd_err_query (fun x => x)
  let l := dd_query_metric ddq tags_str dd_p95_query dd_norm_duration_ms
  (⟨c.1, m.1, p.1, e.1, l.1⟩, ⟨c.2, m.2, p.2, e.2, l.2⟩)

/-- `ok_any` of the loop: some metric was kept (reason ok and numeric). -/
def dd_any_ok (met : DDMetrics) : Bool :=
  met.cpuPct.isSome || met.memPct.isSome || met.pods.isSome ||
    met.errorRatePct.isSome || met.p95ms.isSome

/-- A configured `envSelectors[envKey]` entry (dict with optional keys). -/
structure EnvSelector where
  namespace_ : Option String := none
  cluster : Option String := none
deriving DecidableEq, Repr

/-- A configured `componentSelectors[serviceKey][envKey]` entry. -/
structure ComponentSelector where
  service : Option String := none
  kube_deployment : Option String := none
deriving DecidableEq, Repr

/-- `_dd_build_selector_tags`. -/
def dd_build_selector_tags (env_selector : Option EnvSelector)
    (component_selector : Option ComponentSelector) : List String :=
  (match env_selector with
   | some es =>
     (match es.namespace_ with | some n => ["kube_namespace:" ++ n] | none => []) ++
     (match es.cluster with | some c => ["kube_cluster_name:" ++ c] | none => [])
   | none => []) ++
  (match component_selector with
   | some cs =>
     (match cs.service with | some s => ["service:" ++ s] | none => []) ++
     (match cs.kube_deployment with | some d => ["kube_deployment:" ++ d] | none => [])
   | none => [])

/-- The result record of `datadog_collect_observability` restricted to the
fields the claim reads; a missing `meta.reasons` key is `none` and warnings
are represented by their `type` string. -/
structure DDObservability where
  usedTags : Option (List String) := none
  metrics : DDMetrics := {}
  reasons : Option DDReasons := none
  warnings : List String := []
deriving DecidableEq, Repr

/-- The `type` of the no-data warning appended by the collector. -/
def dd_no_data_warning : String := "datadog_observability_no_data"

/-- The legacy candidate-tag fallback loop of `datadog_collect_observability`:
try each candidate in order, keep the first whose five-query round trip
yields at least one ok numeric value, and emit the no-data warning when none
does. -/
def dd_candidate_loop (ddq : String → Option ℚ × String) (base_tags : List String) :
    List String → DDObservability
  | [] =>
    { usedTags := none, metrics := {},
      reasons := some ⟨"no_data", "no_data", "no_data", "no_data", "no_data"⟩,
      warnings := [dd_no_data_warning] }
  | env_tag :: rest =>
    let tagset := base_tags ++ [env_tag]
    let mr := dd_run_specs ddq (dd_join_tags tagset)
    if dd_any_ok mr.1 then
      { usedTags := some tagset, metrics := mr.1, reasons := some mr.2, warnings := [] }
    else dd_candidate_loop ddq base_tags rest

/-- Embedding of `datadog_collect_observability`: deterministic selector mode
when an env selector is present, otherwise the candidate loop. -/
def datadog_collect_observability (ddq : String → Option ℚ × String)
    (base_tags tag_candidates : List String) (env_selector : Option EnvSelector)
    (component_selector : Option ComponentSelector) : DDObservability :=
  match env_selector with
  | some es =>
    let selector_tags0 := dd_build_selector_tags (some es) component_selector
    let selector_tags := if base_tags.isEmpty then selector_tags0
                         else base_tags ++ selector_tags0
    let mr := dd_run_specs ddq (dd_join_tags selector_tags)
    { usedTags := some selector_tags, metrics := mr.1, reasons := some mr.2,
      warnings := if dd_any_ok mr.1 then [] else [dd_no_data_warning] }
  | none => dd_candidate_loop ddq base_tags tag_candidates

/-- The concrete query oracle of the spec's candidate-mode scenario: the cpu
query tagged `kube_namespace:qa` returns `0.37` with reason ok, every other
query returns no data. -/
def c8ScenarioOracle : String → Option ℚ × String := fun q =>
  if q = dd_apply_tags dd_cpu_query "kube_namespace:qa" then (some (37/100), "ok")
  else (none, "no_data")

/-! ## C6 — environment status (`main`, snapshot.py:4913-4925, 5133-5149) -/

/-- A warning entry attached to a component or an environment.  Only presence
matters to the status invariant, so the payload is kept as a rendered string. -/
structure EnvWarning where
  code : String
  message : String
deriving DecidableEq, Repr

/-- One assembled component, restricted to the fields the modelled claims
read.  `warnings = []` models the absent `warnings` key of the Python dict
(the source only attaches the key when the list is non-empty). -/
structure ComponentRec where
  name : String := ""
  tag : String := ""
  deployedAt : String := ""
  deployer : String := ""
  deployerCommitUrl : String := ""
  kustomizationUrl : String := ""
  buildUrl : String := ""
  warnings : List EnvWarning := []
deriving DecidableEq, Repr

/-- The `PARTIAL_COMPONENT_DATA` environment warning emitted in `main`. -/
def partialComponentWarning : EnvWarning :=
  ⟨"PARTIAL_COMPONENT_DATA", "Some components have incomplete deployment metadata"⟩

/-- Embedding of the environment-warning accumulation in `main`: start empty,
append `PARTIAL_COMPONENT_DATA` iff some component carries a non-empty
warnings list, then append the later environment-level warnings (argo and
datadog) in order. -/
def build_env_warnings (components : List ComponentRec) (laterWarnings : List EnvWarning) :
    List EnvWarning :=
  (if components.any (fun c => !c.warnings.isEmpty) then [partialComponentWarning] else [])
    ++ laterWarnings

/-- Embedding of `env_status = "warn" if env_warnings else "healthy"`. -/
def env_status_of (envWarnings : List EnvWarning) : String :=
  if !envWarnings.isEmpty then "warn" else "healthy"

/-- The assembled status of one environment, as `main` computes it. -/
def assemble_env_status (components : List ComponentRec) (laterWarnings : List EnvWarning) :
    String :=
  env_status_of (build_env_warnings components laterWarnings)

/-! ## C3 — tag-change event derivation
(`_component_map`, snapshot.py:2981-2996; `_mk_history_event`,
snapshot.py:2998-3044; `compute_tag_change_events`, snapshot.py:3047-3069) -/

/-- One environment of an assembled snapshot, restricted to the fields the
event derivation reads. -/
structure EnvRec where
  key : String := ""
  name : String := ""
  deployer : String := ""
  components : List ComponentRec := []
deriving DecidableEq, Repr

/-- One project of an assembled snapshot. -/
structure ProjectRec where
  key : String := ""
  environments : List EnvRec := []
deriving DecidableEq, Repr

/-- An assembled snapshot document (the part the event derivation reads). -/
structure SnapshotDoc where
  projects : List ProjectRec := []
deriving DecidableEq, Repr

/-- The `(project, env, component)` key of `_component_map`. -/
abbrev CompKey := String × String × String

/-- Python dict assignment on an insertion-ordered association list: an
existing key is updated in place, a new key is appended. -/
def dictInsert (m : List (CompKey × (EnvRec × ComponentRec))) (k : CompKey)
    (v : EnvRec × ComponentRec) : List (CompKey × (EnvRec × ComponentRec)) :=
  if m.any (fun e => e.1 = k) then m.map (fun e => if e.1 = k then (k, v) else e)
  else m ++ [(k, v)]

/-- Python dict lookup. -/
def dictLookup (m : List (CompKey × (EnvRec × ComponentRec))) (k : CompKey) :
    Option (EnvRec × ComponentRec) :=
  match m.find? (fun e => e.1 = k) with
  | some e => some e.2
  | none => none

/-- Embedding of `_component_map`: index every component of the snapshot by
`(stripped project key, stripped+lowercased env key, stripped component
name)`, skipping entries with a falsy key part; the stored value keeps the
enclosing env and the component. -/
def component_map (snapshot : SnapshotDoc) : List (CompKey × (EnvRec × ComponentRec)) :=
  snapshot.projects.foldl (fun out proj =>
    let pkey := pyStrip proj.key
    proj.environments.foldl (fun out env =>
      let ekey := pyLower (pyStrip env.key)
      env.components.foldl (fun out comp =>
        let cname := pyStrip comp.name
        if pkey ≠ "" ∧ ekey ≠ "" ∧ cname ≠ "" then
          dictInsert out (pkey, ekey, cname) (env, comp)
        else out) out) out) []

/-- One `links[]` entry of a history event. -/
structure EventLink where
  type_ : String
  label : String
  url : String
deriving DecidableEq, Repr

/-- One release-history event as built by `_mk_history_event` (`at`/`by` are
Lean keywords, hence `at_`/`by_`; `warnings = []` models the absent key). -/
structure HistoryEvent where
  id : String
  kind : String
  bootstrap : Bool
  projectKey : String
  envKey : String
  envName : String
  component : String
  fromTag : String
  toTag : String
  fromBuild : String
  toBuild : String
  at_ : String
  by_ : String
  commitUrl : String
  kustomizationUrl : String
  links : List EventLink
  warnings : List (String × String)
deriving DecidableEq, Repr

/-- Embedding of `_mk_history_event`; `now` stands for the `iso_now()` of the
run. -/
def mk_history_event (now : String) (project_key : String) (env : EnvRec)
    (comp : ComponentRec) (from_tag to_tag : String) : HistoryEvent :=
  let env_key := (normalize_env_key env.key).getD ""
  let env_name := pyStrip (if env.name ≠ "" then env.name else pyUpper env_key)
  let comp_name := pyStrip comp.name
  let commit_url := pyStrip comp.deployerCommitUrl
  let kustom_url := pyStrip comp.kustomizationUrl
  let build_url := pyStrip comp.buildUrl
  let at_ := if pyStrip comp.deployedAt ≠ "" then pyStrip comp.deployedAt else now
  let by_ := if pyStrip comp.deployer ≠ "" then pyStrip comp.deployer
             else pyStrip env.deployer
  let sha := extract_commit_sha commit_url
  let ev_id :=
    if sha ≠ "" then
      sha ++ ":" ++ project_key ++ ":" ++ env_key ++ ":" ++ comp_name ++ ":" ++ to_tag
    else
      project_key ++ ":" ++ env_key ++ ":" ++ comp_name ++ ":" ++ to_tag ++ ":" ++ at_
  let links :=
    (if commit_url ≠ "" then [EventLink.mk "commit" "Commit" commit_url] else []) ++
    (if kustom_url ≠ "" then [EventLink.mk "kustomization" "Kustomization" kustom_url]
     else []) ++
    (if build_url ≠ "" then [EventLink.mk "teamcity" "TeamCity" build_url] else [])
  let warnings :=
    if !comp.warnings.isEmpty then
      [("HISTORY_PARTIAL", "Historical entry may be partial due to missing metadata.")]
    else []
  { id := ev_id, kind := "TAG_CHANGE", bootstrap := false, projectKey := project_key,
    envKey := env_key, envName := env_name, component := comp_name,
    fromTag := pyStrip from_tag, toTag := pyStrip to_tag,
    fromBuild := extract_build_number from_tag, toBuild := extract_build_number to_tag,
    at_ := at_, by_ := by_, commitUrl := commit_url, kustomizationUrl := kustom_url,
    links := links, warnings := warnings }

/-- `out.setdefault(pkey, []).append(ev)` on the grouped output dict. -/
def groupAppend (out : List (String × List HistoryEvent)) (pkey : String)
    (ev : HistoryEvent) : List (String × List HistoryEvent) :=
  if out.any (fun g => g.1 = pkey) then
    out.map (fun g => if g.1 = pkey then (g.1, g.2 ++ [ev]) else g)
  else out ++ [(pkey, [ev])]

/-- Insertion of one event into a list sorted descending by `at`. -/
def insertAtDesc (ev : HistoryEvent) : List HistoryEvent → List HistoryEvent
  | [] => [ev]
  | e :: es => if strLt e.at_ ev.at_ then ev :: e :: es else e :: insertAtDesc ev es

/-- `events.sort(key=lambda e: e.get('at') or '', reverse=True)`, realised as
an insertion sort (the claims only depend on the multiset of events, which
any sort preserves). -/
def sortByAtDesc (l : List HistoryEvent) : List HistoryEvent :=
  l.foldr insertAtDesc []

/-- The per-entry decision of the `compute_tag_change_events` loop: an event
iff both tags are non-empty and differ. -/
def tag_change_event_of (now : String)
    (prev_map : List (CompKey × (EnvRec × ComponentRec)))
    (entry : CompKey × (EnvRec × ComponentRec)) : Option HistoryEvent :=
  let cur_tag := pyStrip entry.2.2.tag
  let prev_tag :=
    match dictLookup prev_map entry.1 with
    | some pv => pyStrip pv.2.tag
    | none => ""
  if prev_tag ≠ "" ∧ cur_tag ≠ "" ∧ prev_tag ≠ cur_tag then
    some (mk_history_event now entry.1.1 entry.2.1 entry.2.2 prev_tag cur_tag)
  else none

/-- Embedding of `compute_tag_change_events`: walk the current component map
in insertion order, emit one event per changed tag, group per project, and
sort each project's events by `at` descending. -/
def compute_tag_change_events (now : String) (prev_snapshot : Option SnapshotDoc)
    (current_snapshot : SnapshotDoc) : List (String × List HistoryEvent) :=
  let prev_map := component_map (prev_snapshot.getD {})
  let cur_map := component_map current_snapshot
  let out := cur_map.foldl (fun out entry =>
    match tag_change_event_of now prev_map entry with
    | some ev => groupAppend out entry.1.1 ev
    | none => out) []
  out.map (fun g => (g.1, sortByAtDesc g.2))

/-- Facts every `component_map` entry satisfies by construction: the env-key
and component-name parts of its key are non-empty and are the normalizations
of the stored records' fields. -/
def compEntryFacts (x : CompKey × (EnvRec × ComponentRec)) : Prop :=
  x.1.2.1 ≠ "" ∧ x.1.2.2 ≠ "" ∧ pyLower (pyStrip x.2.1.key) = x.1.2.1 ∧
    pyStrip x.2.2.name = x.1.2.2

/-- Whether an event's identifying fields name the component key `k`. -/
def eventHasKey (k : CompKey) (e : HistoryEvent) : Bool :=
  decide (e.projectKey = k.1 ∧ e.envKey = k.2.1 ∧ e.component = k.2.2)

/-- Scenario 1 of the spec, previous state: component `X` at `svc-v0.0.10`. -/
def c3PrevComp : ComponentRec :=
  { name := "X", tag := "svc-v0.0.10" }

/-- The env of the previous snapshot of scenario 1. -/
def c3PrevEnv : EnvRec :=
  { key := "qa", name := "QA", components := [c3PrevComp] }

/-- The previous snapshot of scenario 1. -/
def c3PrevDoc : SnapshotDoc :=
  { projects := [{ key := "P1", environments := [c3PrevEnv] }] }

/-- Scenario 1, current state: `X` now at `svc-v0.0.11`, deployed via infra
commit `abc`. -/
def c3CurComp : ComponentRec :=
  { name := "X", tag := "svc-v0.0.11", deployedAt := "2026-01-19T12:00:00Z",
    deployerCommitUrl := "https://github.com/acme/x-infra/commit/abc" }

/-- The environment record of the current snapshot of scenario 1. -/
def c3CurEnv : EnvRec :=
  { key := "qa", name := "QA", components := [c3CurComp] }

/-- The current snapshot of scenario 1. -/
def c3CurDoc : SnapshotDoc :=
  { projects := [{ key := "P1", environments := [c3CurEnv] }] }

/-! ## C7 — history retention (`_apply_retention_policy`,
snapshot.py:3433-3502) -/

/-- One parsed record of the active events log, reduced to the fields the
retention scan reads (`id`, `at`) plus an opaque payload. -/
structure REvent where
  id : String := ""
  at_ : String := ""
  payload : String := ""
deriving DecidableEq, Repr

/-- One line of `events.jsonl`: a parsed event or a malformed/blank line
(which the scan skips, and a rewrite drops). -/
inductive LogLine where
  | malformed
  | event (e : REvent)
deriving DecidableEq, Repr

/-- The slice of `index.json` the retention policy touches.  A missing
`retention.days` key is `none` (the default applies). -/
structure RetentionIndex where
  days : Option Nat := none
  lastCleanup : Option String := none
  totalEvents : Nat := 0
deriving DecidableEq, Repr

/-- The on-disk state the retention policy reads and writes: the index, the
active log (`none` models a missing `events.jsonl`), and the monthly archive
files keyed by their `%Y-%m` name. -/
structure HistoryState where
  index : RetentionIndex
  activeLog : Option (List LogLine)
  archives : List (String × List REvent)
deriving DecidableEq, Repr

/-- `RELEASE_HISTORY_RETENTION_DAYS` with its unset-env default. -/
def RELEASE_HISTORY_RETENTION_DAYS : Nat := 90

/-- The time-dependent inputs of one retention run, abstracting
`datetime.now(timezone.utc)`: the `.days` of `now` minus a parsed
`lastCleanup` (`none` models a parse failure), the ISO cutoff string
`now - timedelta(days=n)` with `+00:00` replaced by `Z`, the cutoff's
`%Y-%m`, and `iso_now()`. -/
structure TimeOracle where
  elapsedDays : String → Option Int
  cutoffIsoOf : Nat → String
  cutoffMonthOf : Nat → String
  nowIso : String

/-- The skip decision: cleanup ran less than one day ago. -/
def retention_skip (t : TimeOracle) (st : HistoryState) : Bool :=
  match st.index.lastCleanup with
  | some lc =>
    match t.elapsedDays lc with
    | some d => d < 1
    | none => false
  | none => false

/-- The parsed events of the active log, skipping malformed lines. -/
def retention_parse_events (lines : List LogLine) : List REvent :=
  lines.filterMap (fun l => match l with | .malformed => none | .event e => some e)

/-- `event_at and event_at < cutoff_iso` (ISO strings compared
lexicographically, as the code does). -/
def retention_is_old (cutoff_iso : String) (e : REvent) : Bool :=
  e.at_ ≠ "" && strLt e.at_ cutoff_iso

/-- Append events to the monthly archive file, creating it if absent. -/
def archiveAppend (archives : List (String × List REvent)) (month : String)
    (evs : List REvent) : List (String × List REvent) :=
  if archives.any (fun g => g.1 = month) then
    archives.map (fun g => if g.1 = month then (g.1, g.2 ++ evs) else g)
  else archives ++ [(month, evs)]

/-- Embedding of `_apply_retention_policy`: skip when the last cleanup is
less than a day old; otherwise partition the active log around the cutoff,
append the old events to the cutoff month's archive file, rewrite the active
log with the kept events, and update `totalEvents` and `lastCleanup` — all of
that only when at least one event was old. -/
def apply_retention_policy (t : TimeOracle) (st : HistoryState) : HistoryState :=
  let retention_days := st.index.days.getD RELEASE_HISTORY_RETENTION_DAYS
  if retention_skip t st then st
  else
    let cutoff_iso := t.cutoffIsoOf retention_days
    match st.activeLog with
    | none => st
    | some lines =>
      let events := retention_parse_events lines
      let events_to_archive := events.filter (retention_is_old cutoff_iso)
      let events_to_keep := events.filter (fun e => !(retention_is_old cutoff_iso e))
      if !events_to_archive.isEmpty then
        { index :=
            { st.index with
              lastCleanup := some t.nowIso
              totalEvents := events_to_keep.length }
          activeLog := some (events_to_keep.map .event)
          archives := archiveAppend st.archives (t.cutoffMonthOf retention_days)
            events_to_archive }
      else st

/-- The retention state of the C7 counterexample: a stale `totalEvents` of 5,
no recorded cleanup, and one recent event in the log. -/
def c7State : HistoryState :=
  { index := { days := none, lastCleanup := none, totalEvents := 5 },
    activeLog := some [.event { id := "e1", at_ := "2026-10-01T00:00:00Z" }],
    archives := [] }

/-- The time oracle of the C7 counterexample (cutoff 90 days before
2026-10-12). -/
def c7Oracle : TimeOracle :=
  { elapsedDays := fun _ => none,
    cutoffIsoOf := fun _ => "2026-07-14T00:00:00Z",
    cutoffMonthOf := fun _ => "2026-07",
    nowIso := "2026-10-12T00:00:00Z" }

/-- C7 witness state: one event inside and one outside the retention
window. -/
def c7WitnessState : HistoryState :=
  { index := { days := none, lastCleanup := none, totalEvents := 2 },
    activeLog := some [.event { id := "old1", at_ := "2026-05-01T00:00:00Z" },
      LogLine.malformed,
      .event { id := "new1", at_ := "2026-10-01T00:00:00Z" }],
    archives := [] }

/-! ## C10 — append-only events log (`_append_events_to_jsonl`,
snapshot.py:3415; `atomic_append_jsonl`, file_utils.py:131) -/

/-- One record of the JSONL events log; `id` is the field both append layers
guard on, `payload` stands for the rest of the serialized object. -/
structure JsonlEvent where
  id : String
  payload : String := ""
deriving DecidableEq, Repr

/-- Embedding of `atomic_append_jsonl` at the data level: the existing file
content is copied and each new event is appended unless its `id` is falsy
(missing/empty).  The tmp-file, locking and fsync machinery changes no
line content and is elided. -/
def atomic_append_jsonl (file : List JsonlEvent) (events : List JsonlEvent) :
    List JsonlEvent :=
  file ++ events.filter (fun e => e.id ≠ "")

/-- Embedding of `_append_events_to_jsonl`: flatten the per-project event
lists, drop events without an `id`, and append only when something is left. -/
def append_events_to_jsonl (events_by_project : List (String × List JsonlEvent))
    (file : List JsonlEvent) : List JsonlEvent :=
  let all_events := (events_by_project.flatMap (·.2)).filter (fun e => e.id ≠ "")
  if !all_events.isEmpty then atomic_append_jsonl file all_events else file

/-! ## C9 — TeamCity timestamp normalization (`parse_iso_teamcity`,
snapshot.py:2747; `teamcity_get_build_details`, snapshot.py:2782) -/

/-- The decimal digit character of `n % 10`. -/
def decDigit (n : Nat) : Char :=
  match n with
  | 0 => '0' | 1 => '1' | 2 => '2' | 3 => '3' | 4 => '4'
  | 5 => '5' | 6 => '6' | 7 => '7' | 8 => '8' | _ => '9'

/-- Two-digit zero-padded decimal rendering (`%m`, `%d`, `%H`, `%M`, `%S` of
`isoformat`). -/
def pad2 (n : Nat) : String :=
  String.mk [decDigit (n / 10 % 10), decDigit (n % 10)]

/-- Four-digit zero-padded decimal rendering (`%Y` of `isoformat`). -/
def pad4 (n : Nat) : String :=
  String.mk [decDigit (n / 1000 % 10), decDigit (n / 100 % 10),
    decDigit (n / 10 % 10), decDigit (n % 10)]

/-- The Gregorian leap-year rule. -/
def isLeap (y : Int) : Bool :=
  y.emod 4 = 0 && (y.emod 100 ≠ 0 || y.emod 400 = 0)

/-- Days in a month, as `datetime` validates them. -/
def daysInMonth (y : Int) (m : Nat) : Nat :=
  match m with
  | 1 => 31 | 2 => if isLeap y then 29 else 28 | 3 => 31 | 4 => 30
  | 5 => 31 | 6 => 30 | 7 => 31 | 8 => 31 | 9 => 30 | 10 => 31
  | 11 => 30 | _ => 31

/-- Days from 1970-01-01 to the civil date y-m-d (Hinnant's algorithm, as
`datetime` date arithmetic behaves). -/
def days_from_civil (y : Int) (m d : Nat) : Int :=
  let y' : Int := if m ≤ 2 then y - 1 else y
  let era : Int := y'.fdiv 400
  let yoe : Int := y' - era * 400
  let mp : Nat := (m + 9) % 12
  let doy : Nat := (153 * mp + 2) / 5 + d - 1
  let doe : Int := yoe * 365 + yoe.fdiv 4 - yoe.fdiv 100 + doy
  era * 146097 + doe - 719468

/-- The civil date (y, m, d) of a day count from 1970-01-01 (inverse of
`days_from_civil`). -/
def civil_from_days (z : Int) : Int × Nat × Nat :=
  let z' : Int := z + 719468
  let era : Int := z'.fdiv 146097
  let doe : Nat := (z' - era * 146097).toNat
  let yoe : Nat := (doe - doe / 1460 + doe / 36524 - doe / 146096) / 365
  let y : Int := yoe + era * 400
  let doy : Nat := doe - (365 * yoe + yoe / 4 - yoe / 100)
  let mp : Nat := (5 * doy + 2) / 153
  let d : Nat := doy - (153 * mp + 2) / 5 + 1
  let m : Nat := if mp < 10 then mp + 3 else mp - 9
  (if m ≤ 2 then y + 1 else y, m, d)

/-- The numeric value of a decimal digit character, `none` otherwise. -/
def digitVal (c : Char) : Option Nat :=
  if '0' ≤ c && c ≤ '9' then some (c.toNat - 48) else none

/-- Read exactly two decimal digits off the front of a character list. -/
def read2 : List Char → Option (Nat × List Char)
  | a :: b :: rest =>
    match digitVal a, digitVal b with
    | some x, some y => some (10 * x + y, rest)
    | _, _ => none
  | _ => none

/-- Read a `+`/`-` offset sign. -/
def readSign : List Char → Option (Int × List Char)
  | '+' :: r => some (1, r)
  | '-' :: r => some (-1, r)
  | _ => none

/-- `datetime.strptime(s, "%Y%m%dT%H%M%S%z")` on the fixed-width vendor
format the TeamCity API emits (`YYYYMMDDThhmmss±hhmm`, the format named in
the `parse_iso_teamcity` docstring): the parsed fields
(year, month, day, hour, minute, second, UTC-offset seconds), or `none` when
the shape or a field range is invalid (strptime's `ValueError`, and
`datetime`'s field validation). -/
def strptime_tc (s : String) : Option (Int × Nat × Nat × Nat × Nat × Nat × Int) := do
  let (y1, r) ← read2 s.toList
  let (y2, r) ← read2 r
  let (mo, r) ← read2 r
  let (dy, r) ← read2 r
  match r with
  | 'T' :: r => do
    let (hh, r) ← read2 r
    let (mi, r) ← read2 r
    let (se, r) ← read2 r
    let (sgn, r) ← readSign r
    let (oh, r) ← read2 r
    let (om, r) ← read2 r
    let y : Nat := 100 * y1 + y2
    guard (r = [])
    guard (1 ≤ y)
    guard (1 ≤ mo && mo ≤ 12)
    guard (1 ≤ dy && dy ≤ daysInMonth y mo)
    guard (hh ≤ 23 && mi ≤ 59 && se ≤ 59 && oh ≤ 23 && om ≤ 59)
    some ((y : Int), mo, dy, hh, mi, se, sgn * (oh * 3600 + om * 60))
  | _ => none

/-- Embedding of `parse_iso_teamcity`: empty in, empty out; otherwise
strptime the vendor format, convert to UTC
(`dt.astimezone(timezone.utc)` — epoch-seconds arithmetic, with datetime's
year range 1..9999 re-checked, `OverflowError` also yielding `""`), and
render `isoformat()` with `+00:00` replaced by `Z`. -/
def parse_iso_teamcity (s : String) : String :=
  if s = "" then ""
  else
    match strptime_tc s with
    | none => ""
    | some t =>
      let y := t.1
      let mo := t.2.1
      let dy := t.2.2.1
      let hh := t.2.2.2.1
      let mi := t.2.2.2.2.1
      let se := t.2.2.2.2.2.1
      let off := t.2.2.2.2.2.2
      let secs : Int := days_from_civil y mo dy * 86400 + hh * 3600 + mi * 60 + se - off
      let days : Int := secs.fdiv 86400
      let sod : Nat := (secs - days * 86400).toNat
      let c := civil_from_days days
      if 1 ≤ c.1 && c.1 ≤ 9999 then
        pad4 c.1.toNat ++ "-" ++ pad2 c.2.1 ++ "-" ++ pad2 c.2.2 ++ "T" ++
          pad2 (sod / 3600) ++ ":" ++ pad2 (sod % 3600 / 60) ++ ":" ++
          pad2 (sod % 60) ++ "Z"
      else ""

/-- Python `s.endswith(suf)`, decided on the character lists. -/
def pyEndswith (s suf : String) : Bool :=
  suf.toList.reverse.isPrefixOf s.toList.reverse

/-- The build-details body, reduced to the two timestamp fields the claim is
about plus an opaque payload for the rest of the selected fields. -/
structure TCBuild where
  startDate : String := ""
  finishDate : String := ""
  payload : String := ""
deriving DecidableEq, Repr

/-- The HTTP response of the one GET `teamcity_get_build_details` makes:
its status and parsed JSON body (`none` models a falsy body, which
`r.json() or \x7b\x7d` turns into the empty dict). -/
structure TCResponse where
  status : Nat
  body : Option TCBuild := none
deriving DecidableEq, Repr

/-- Embedding of `teamcity_get_build_details`: falsy arguments yield `None`;
401/403 yield `None`; `raise_for_status` raises on status ≥ 400; otherwise
the parsed body is returned as-is (`return r.json() or \x7b\x7d` — no field
of it is rewritten). -/
def teamcity_get_build_details (rest_base token : String) (build_id : Nat)
    (resp : TCResponse) : Except Nat (Option TCBuild) :=
  if rest_base = "" ∨ token = "" ∨ build_id = 0 then .ok none
  else if resp.status = 401 ∨ resp.status = 403 then .ok none
  else if 400 ≤ resp.status then .error resp.status
  else .ok (some (resp.body.getD {}))

/-- The raw build body of the C9 counterexample: the vendor-format
timestamps exactly as TeamCity returns them. -/
def c9RawBuild : TCBuild :=
  { startDate := "20251204T141343+0000", finishDate := "20251204T142000+0000" }

end WatchTurm

namespace WatchTurm

/-! ## Theorems for C5 -/

/-- C5 counterexample: the claim says the derived stage is determined by
case-insensitive substring match with `qa|green → QA`, but for the
environment name `"green-2"` (which contains the substring `green`) the code
derives `DEV` while the claimed rule derives `QA`. -/
theorem C5_stage_derivation_counterexample :
    env_to_stage "green-2" = "DEV" ∧ specStageRuleC5 "green-2" = "QA" ∧
      env_to_stage "green-2" ≠ specStageRuleC5 "green-2" := by
  refine ⟨by decide, by decide, by decide⟩

/-- C5 amended: the derived stage follows the claimed substring rule except
that `green` maps to QA only by exact match; in particular "PRODUCTION" →
PROD, "green" → QA, "integration-uat" → UAT, and "" → DEV. -/
theorem C5_stage_derivation_amended :
    (∀ s : String, env_to_stage s = amendedStageRuleC5 s) ∧
      env_to_stage "PRODUCTION" = "PROD" ∧ env_to_stage "green" = "QA" ∧
      env_to_stage "integration-uat" = "UAT" ∧ env_to_stage "" = "DEV" := by
  refine ⟨fun s => ?_, by decide, by decide, by decide, by decide⟩
  unfold env_to_stage amendedStageRuleC5
  dsimp only
  set n := pyLower (pyStrip s) with hn
  by_cases h0 : n = ""
  · rw [h0]
    decide
  · rw [if_neg h0]
    by_cases hP : strContains n "prod" = true
    · rw [if_pos hP, if_pos hP]
    · rw [if_neg hP, if_neg hP]
      by_cases hU : strContains n "uat" = true
      · rw [if_pos hU, if_pos hU]
      · rw [if_neg hU, if_neg hU]
        by_cases hqa : n = "qa"
        · have hq : strContains "qa" "qa" = true := by decide
          simp [hqa, hq]
        · simp [hqa]

/-! ## Theorems for C2 -/

/-- Characterisation of the inner-loop decision: a branch record produces an
entry exactly when its creation time parses, is not before the merge time,
and the merge commit is reachable (tip equality, or an important branch name
with a successful reachability check). -/
theorem branchDecision_eq_some {parse : String → Option Int}
    {reach : String → String → Option Bool} {merge_sha merged_at : String}
    {merged_dt : Int} {bi : BranchInfo} {e : CorrelatedBranch} :
    branchDecision parse reach merge_sha merged_at merged_dt bi = some e ↔
      (e = ⟨pyStrip bi.name, pyStrip bi.createdAt, pyStrip bi.sha, merged_at⟩ ∧
       ∃ c : Int, parse_iso_safe parse (pyStrip bi.createdAt) = some c ∧
         merged_dt ≤ c ∧
         (pyStrip bi.sha = merge_sha ∨
          ((pyStartswith (pyStrip bi.name) "release/" = true ∨ pyStrip bi.name = "main" ∨
            pyStrip bi.name = "master") ∧ reach merge_sha (pyStrip bi.name) = some true))) := by
  unfold branchDecision
  dsimp only
  cases hc : parse_iso_safe parse (pyStrip bi.createdAt) with
  | none => simp [hc]
  | some c =>
    dsimp only
    by_cases hlt : c < merged_dt
    · rw [if_pos hlt]
      constructor
      · intro h
        exact absurd h (by simp)
      · rintro ⟨-, c', hc', hle, -⟩
        injection hc' with hcc
        subst hcc
        exact absurd hle (not_le.mpr hlt)
    · rw [if_neg hlt]
      by_cases hsha : pyStrip bi.sha = merge_sha
      · rw [if_pos hsha]
        constructor
        · intro h
          injection h with he
          exact ⟨he.symm, c, rfl, not_lt.mp hlt, Or.inl hsha⟩
        · rintro ⟨he, -⟩
          rw [he]
      · rw [if_neg hsha]
        by_cases himp : (pyStartswith (pyStrip bi.name) "release/" ||
            pyStrip bi.name = "main" || pyStrip bi.name = "master") = true
        · rw [if_pos himp]
          have himp' : pyStartswith (pyStrip bi.name) "release/" = true ∨
              pyStrip bi.name = "main" ∨ pyStrip bi.name = "master" := by
            simpa [Bool.or_eq_true, decide_eq_true_eq, or_assoc] using himp
          cases hr : reach merge_sha (pyStrip bi.name) with
          | none =>
            constructor
            · intro h; exact absurd h (by simp)
            · rintro ⟨-, c', -, -, hor⟩
              rcases hor with h | ⟨-, hr'⟩
              · exact absurd h hsha
              · exact absurd hr' (by simp)
          | some bv =>
            cases bv with
            | true =>
              constructor
              · intro h
                injection h with he
                exact ⟨he.symm, c, rfl, not_lt.mp hlt, Or.inr ⟨himp', rfl⟩⟩
              · rintro ⟨he, -⟩
                rw [he]
            | false =>
              constructor
              · intro h; exact absurd h (by simp)
              · rintro ⟨-, c', -, -, hor⟩
                rcases hor with h | ⟨-, hr'⟩
                · exact absurd h hsha
                · exact absurd hr' (by simp)
        · rw [if_neg himp]
          constructor
          · intro h; exact absurd h (by simp)
          · rintro ⟨-, c', -, -, hor⟩
            rcases hor with h | ⟨himp', -⟩
            · exact absurd h hsha
            · refine absurd ?_ himp
              simpa [Bool.or_eq_true, decide_eq_true_eq, or_assoc] using himp'

/-- A PR with no branches correlates to nothing. -/
theorem branchesForPR_nil {parse : String → Option Int}
    {reach : String → String → Option Bool} {pr : PullReq} :
    branchesForPR parse reach pr [] = [] := by
  unfold branchesForPR
  dsimp only
  cases parse_iso_safe parse (pyStrip pr.mergedAt) with
  | none => rfl
  | some m => by_cases h : pyStrip pr.mergeSha = "" <;> simp [h]

/-- C2: time-aware PR → branch correlation is fail-closed.  (1) For every PR
and branch record, the branch's entry is attached to the PR iff the PR has a
non-empty `mergeSha`, its `mergedAt` parses, the branch's `createdAt` parses
to a time ≥ the merge time, and the merge commit is reachable from the branch
(tip equality, or a successful full check for `main`/`master`/`release/*`);
any missing timestamp or sha excludes the branch.  (2) The top-level
correlator output is exactly the union of the per-PR attachments. -/
theorem C2_pr_branch_time_aware_fail_closed (parse : String → Option Int)
    (reach : String → String → Option Bool) (prs : List PullReq)
    (repo_branches : List BranchInfo) :
    (∀ pr : PullReq, ∀ b ∈ repo_branches,
      ((⟨pyStrip b.name, pyStrip b.createdAt, pyStrip b.sha, pyStrip pr.mergedAt⟩ :
          CorrelatedBranch) ∈ branchesForPR parse reach pr repo_branches) ↔
        (pyStrip pr.mergeSha ≠ "" ∧
         ∃ m c : Int, parse_iso_safe parse (pyStrip pr.mergedAt) = some m ∧
           parse_iso_safe parse (pyStrip b.createdAt) = some c ∧ m ≤ c ∧
           (pyStrip b.sha = pyStrip pr.mergeSha ∨
            ((pyStartswith (pyStrip b.name) "release/" = true ∨ pyStrip b.name = "main" ∨
              pyStrip b.name = "master") ∧
             reach (pyStrip pr.mergeSha) (pyStrip b.name) = some true)))) ∧
    (∀ e : CorrelatedBranch,
      e ∈ correlate_prs_with_branches_time_aware parse reach prs repo_branches ↔
        ∃ pr ∈ prs, e ∈ branchesForPR parse reach pr repo_branches) := by
  constructor
  · intro pr b hb
    unfold branchesForPR
    dsimp only
    cases hm : parse_iso_safe parse (pyStrip pr.mergedAt) with
    | none => simp [hm]
    | some m0 =>
      dsimp only
      by_cases hsha0 : pyStrip pr.mergeSha = ""
      · rw [if_pos hsha0]
        simp [hsha0]
      · rw [if_neg hsha0]
        rw [List.mem_filterMap]
        constructor
        · rintro ⟨a, ha, hfa⟩
          rw [branchDecision_eq_some] at hfa
          obtain ⟨he, c, hc, hle, hor⟩ := hfa
          rw [CorrelatedBranch.mk.injEq] at he
          obtain ⟨hname, hcreated, hshab, -⟩ := he
          refine ⟨hsha0, m0, c, rfl, ?_, hle, ?_⟩
          · rw [hcreated]; exact hc
          · rw [hname, hshab]; exact hor
        · rintro ⟨-, m', c, hm', hc, hle, hor⟩
          injection hm' with hmm
          subst hmm
          exact ⟨b, hb, branchDecision_eq_some.mpr ⟨rfl, c, hc, hle, hor⟩⟩
  · intro e
    unfold correlate_prs_with_branches_time_aware
    by_cases hp : (prs.isEmpty || repo_branches.isEmpty) = true
    · rw [if_pos hp]
      rcases Bool.or_eq_true_iff.mp hp with h | h
      · rw [List.isEmpty_iff] at h
        subst h
        simp
      · rw [List.isEmpty_iff] at h
        subst h
        simp [branchesForPR_nil]
    · rw [if_neg hp]
      exact List.mem_flatMap

/-- C2 witness: the spec's own scenario — PR with `mergeSha="s1"` merged at a
parseable time; branch `release/1.2.1` created later and containing `s1` is
attached. -/
theorem C2_pr_branch_time_aware_fail_closed_witness :
    (⟨pyStrip (BranchInfo.mk "release/1.2.1" "2026-01-11T00:00:00Z" "b2").name,
      pyStrip (BranchInfo.mk "release/1.2.1" "2026-01-11T00:00:00Z" "b2").createdAt,
      pyStrip (BranchInfo.mk "release/1.2.1" "2026-01-11T00:00:00Z" "b2").sha,
      pyStrip (PullReq.mk "acme/x" "2026-01-10T10:00:00Z" "s1").mergedAt⟩ : CorrelatedBranch)
      ∈ branchesForPR
          (fun s => if s = "2026-01-10T10:00:00Z" then some 100
                    else if s = "2026-01-11T00:00:00Z" then some 200 else none)
          (fun sha branch => if sha = "s1" && branch = "release/1.2.1" then some true
                             else some false)
          (PullReq.mk "acme/x" "2026-01-10T10:00:00Z" "s1")
          [BranchInfo.mk "release/1.2.1" "2026-01-11T00:00:00Z" "b2"] :=
  ((C2_pr_branch_time_aware_fail_closed
      (fun s => if s = "2026-01-10T10:00:00Z" then some 100
                else if s = "2026-01-11T00:00:00Z" then some 200 else none)
      (fun sha branch => if sha = "s1" && branch = "release/1.2.1" then some true
                         else some false)
      [PullReq.mk "acme/x" "2026-01-10T10:00:00Z" "s1"]
      [BranchInfo.mk "release/1.2.1" "2026-01-11T00:00:00Z" "b2"]).1
    (PullReq.mk "acme/x" "2026-01-10T10:00:00Z" "s1")
    (BranchInfo.mk "release/1.2.1" "2026-01-11T00:00:00Z" "b2")
    (List.mem_singleton.mpr rfl)).mpr
    (by
      refine ⟨by decide, 100, 200, by decide, by decide, by decide, Or.inr ⟨?_, by decide⟩⟩
      exact Or.inl (by decide))

/-! ## Theorems for C3 -/

/-- A fold whose step preserves a pointwise property preserves it. -/
theorem foldl_mem_preserve {α β : Type} {P : β → Prop} (f : List β → α → List β)
    (hf : ∀ out a, (∀ x ∈ out, P x) → ∀ x ∈ f out a, P x) :
    ∀ (l : List α) (out : List β), (∀ x ∈ out, P x) → ∀ x ∈ List.foldl f out l, P x := by
  intro l
  induction l with
  | nil => intro out h; exact h
  | cons a l ih => intro out h; exact ih (f out a) (hf out a h)

/-- A fold whose step preserves a list property preserves it. -/
theorem foldl_prop_preserve {α β : Type} (Q : List β → Prop) (f : List β → α → List β)
    (hf : ∀ out a, Q out → Q (f out a)) :
    ∀ (l : List α) (out : List β), Q out → Q (List.foldl f out l) := by
  intro l
  induction l with
  | nil => intro out h; exact h
  | cons a l ih => intro out h; exact ih (f out a) (hf out a h)

/-- `dictInsert` preserves a pointwise property when the inserted pair has
it. -/
theorem dictInsert_forall {P : (CompKey × (EnvRec × ComponentRec)) → Prop}
    {m : List (CompKey × (EnvRec × ComponentRec))} {k : CompKey}
    {v : EnvRec × ComponentRec} (h : ∀ x ∈ m, P x) (hkv : P (k, v)) :
    ∀ x ∈ dictInsert m k v, P x := by
  intro x hx
  unfold dictInsert at hx
  by_cases hany : (m.any (fun e => e.1 = k)) = true
  · rw [if_pos hany] at hx
    obtain ⟨e, he, heq⟩ := List.mem_map.mp hx
    by_cases hek : e.1 = k
    · rw [if_pos hek] at heq
      exact heq ▸ hkv
    · rw [if_neg hek] at heq
      exact heq ▸ h e he
  · rw [if_neg hany] at hx
    rcases List.mem_append.mp hx with h1 | h1
    · exact h x h1
    · have := List.mem_singleton.mp h1
      exact this ▸ hkv

/-- Every `component_map` entry satisfies `compEntryFacts`. -/
theorem component_map_facts (snap : SnapshotDoc) :
    ∀ x ∈ component_map snap, compEntryFacts x := by
  unfold component_map
  refine foldl_mem_preserve _ ?_ snap.projects [] (by intro x hx; cases hx)
  intro out proj hout
  refine foldl_mem_preserve _ ?_ proj.environments out hout
  intro out2 env hout2
  refine foldl_mem_preserve _ ?_ env.components out2 hout2
  intro out3 comp hout3
  dsimp only
  by_cases hg : (pyStrip proj.key ≠ "" ∧ pyLower (pyStrip env.key) ≠ "" ∧
      pyStrip comp.name ≠ "")
  · rw [if_pos hg]
    exact dictInsert_forall hout3 ⟨hg.2.1, hg.2.2, rfl, rfl⟩
  · rw [if_neg hg]
    exact hout3

/-- `dictInsert` keeps the key list duplicate-free. -/
theorem dictInsert_keys_nodup {m : List (CompKey × (EnvRec × ComponentRec))}
    {k : CompKey} {v : EnvRec × ComponentRec}
    (h : (m.map (fun x => x.1)).Nodup) :
    ((dictInsert m k v).map (fun x => x.1)).Nodup := by
  unfold dictInsert
  by_cases hany : (m.any (fun e => e.1 = k)) = true
  · rw [if_pos hany]
    have heq : (m.map (fun e => if e.1 = k then (k, v) else e)).map (fun x => x.1) =
        m.map (fun x => x.1) := by
      rw [List.map_map]
      refine List.map_congr_left ?_
      intro e he
      by_cases hek : e.1 = k
      · simp [hek]
      · simp [hek]
    rw [heq]
    exact h
  · rw [if_neg hany]
    have hknot : k ∉ m.map (fun x => x.1) := by
      intro hk
      obtain ⟨e, he, hek⟩ := List.mem_map.mp hk
      exact absurd (List.any_eq_true.mpr ⟨e, he, by simp [hek]⟩) hany
    rw [List.map_append, List.nodup_append]
    refine ⟨h, List.nodup_singleton k, ?_⟩
    intro a ha hb
    rw [List.mem_singleton.mp hb] at ha
    exact hknot ha

/-- The component map's keys are duplicate-free. -/
theorem component_map_keys_nodup (snap : SnapshotDoc) :
    ((component_map snap).map (fun x => x.1)).Nodup := by
  unfold component_map
  refine foldl_prop_preserve
    (fun (m : List (CompKey × (EnvRec × ComponentRec))) => (m.map (fun x => x.1)).Nodup)
    _ ?_ snap.projects [] (by simp)
  intro out proj hout
  refine foldl_prop_preserve
    (fun (m : List (CompKey × (EnvRec × ComponentRec))) => (m.map (fun x => x.1)).Nodup)
    _ ?_ proj.environments out hout
  intro out2 env hout2
  refine foldl_prop_preserve
    (fun (m : List (CompKey × (EnvRec × ComponentRec))) => (m.map (fun x => x.1)).Nodup)
    _ ?_ env.components out2 hout2
  intro out3 comp hout3
  dsimp only
  by_cases hg : (pyStrip proj.key ≠ "" ∧ pyLower (pyStrip env.key) ≠ "" ∧
      pyStrip comp.name ≠ "")
  · rw [if_pos hg]
    exact dictInsert_keys_nodup hout3
  · rw [if_neg hg]
    exact hout3

/-- A successful dict lookup names a member. -/
theorem dictLookup_mem {m : List (CompKey × (EnvRec × ComponentRec))} {k : CompKey}
    {v : EnvRec × ComponentRec} (h : dictLookup m k = some v) : (k, v) ∈ m := by
  unfold dictLookup at h
  cases hf : m.find? (fun e => e.1 = k) with
  | none => rw [hf] at h; cases h
  | some e =>
    rw [hf] at h
    injection h with hev
    have hmem := List.mem_of_find?_eq_some hf
    have hkey : e.1 = k := by simpa using List.find?_some hf
    have hekv : (k, v) = e := by
      obtain ⟨ek, ev2⟩ := e
      simp only at hkey hev
      rw [hkey, hev]
    rw [hekv]
    exact hmem

/-- Normalising a key whose strip+lower form is non-empty succeeds. -/
theorem normalize_env_key_of_ne {key ek : String}
    (hek : pyLower (pyStrip key) = ek) (hne : ek ≠ "") :
    normalize_env_key key = some ek := by
  have hstrip : pyStrip key ≠ "" := by
    intro h0
    rw [h0] at hek
    exact hne (hek ▸ rfl)
  have hkey : key ≠ "" := by
    intro h0
    rw [h0] at hstrip
    exact hstrip (by decide)
  unfold normalize_env_key
  rw [if_neg hkey]
  dsimp only
  rw [if_neg hstrip, hek]

/-- The identifying fields of an emitted event are exactly its source entry's
key parts. -/
theorem tag_change_event_fields {now : String}
    {pm : List (CompKey × (EnvRec × ComponentRec))}
    {entry : CompKey × (EnvRec × ComponentRec)} {e : HistoryEvent}
    (hf : compEntryFacts entry)
    (h : tag_change_event_of now pm entry = some e) :
    e.projectKey = entry.1.1 ∧ e.envKey = entry.1.2.1 ∧ e.component = entry.1.2.2 := by
  unfold tag_change_event_of at h
  dsimp only at h
  split at h
  · injection h with he
    subst he
    refine ⟨rfl, ?_, hf.2.2.2⟩
    show (normalize_env_key entry.2.1.key).getD "" = entry.1.2.1
    rw [normalize_env_key_of_ne hf.2.2.1 hf.1]
    rfl
  · cases h

/-- Inserting into a descending-sorted list is a permutation of consing. -/
theorem insertAtDesc_perm (ev : HistoryEvent) (l : List HistoryEvent) :
    List.Perm (insertAtDesc ev l) (ev :: l) := by
  induction l with
  | nil => exact List.Perm.refl _
  | cons e es ih =>
    unfold insertAtDesc
    by_cases h : strLt e.at_ ev.at_ = true
    · rw [if_pos h]
    · rw [if_neg h]
      exact (ih.cons e).trans (List.Perm.swap ev e es)

/-- The per-project sort permutes the events. -/
theorem sortByAtDesc_perm (l : List HistoryEvent) : List.Perm (sortByAtDesc l) l := by
  induction l with
  | nil => exact List.Perm.refl _
  | cons e es ih =>
    show List.Perm (insertAtDesc e (sortByAtDesc es)) (e :: es)
    exact (insertAtDesc_perm e (sortByAtDesc es)).trans (ih.cons e)

/-- `groupAppend` keeps the group-key list duplicate-free. -/
theorem groupAppend_keys_nodup {out : List (String × List HistoryEvent)} {pk : String}
    {ev : HistoryEvent} (h : (out.map (fun x => x.1)).Nodup) :
    ((groupAppend out pk ev).map (fun x => x.1)).Nodup := by
  unfold groupAppend
  by_cases hany : (out.any (fun g => g.1 = pk)) = true
  · rw [if_pos hany]
    have heq : (out.map (fun g => if g.1 = pk then (g.1, g.2 ++ [ev]) else g)).map
        (fun x => x.1) = out.map (fun x => x.1) := by
      rw [List.map_map]
      refine List.map_congr_left ?_
      intro g hg
      by_cases hgk : g.1 = pk
      · simp [hgk]
      · simp [hgk]
    rw [heq]
    exact h
  · rw [if_neg hany]
    have hknot : pk ∉ out.map (fun x => x.1) := by
      intro hk
      obtain ⟨g, hg, hgk⟩ := List.mem_map.mp hk
      exact absurd (List.any_eq_true.mpr ⟨g, hg, by simp [hgk]⟩) hany
    rw [List.map_append, List.nodup_append]
    refine ⟨h, List.nodup_singleton pk, ?_⟩
    intro a ha hb
    rw [List.mem_singleton.mp hb] at ha
    exact hknot ha

/-- Flattening after a `groupAppend` is, up to permutation, consing the new
event. -/
theorem groupAppend_flat_perm {out : List (String × List HistoryEvent)} {pk : String}
    {ev : HistoryEvent} (hnd : (out.map (fun x => x.1)).Nodup) :
    List.Perm ((groupAppend out pk ev).flatMap (fun g => g.2))
      (ev :: out.flatMap (fun g => g.2)) := by
  induction out with
  | nil =>
    show List.Perm (([] ++ [(pk, [ev])]).flatMap (fun g => g.2)) _
    simp
  | cons g gs ih =>
    have hnd1 : (g.1 :: gs.map (fun x => x.1)).Nodup := by
      rw [← List.map_cons]
      exact hnd
    obtain ⟨hhead, htail⟩ := List.nodup_cons.mp hnd1
    unfold groupAppend
    by_cases hany : ((g :: gs).any (fun x => x.1 = pk)) = true
    · rw [if_pos hany]
      simp only [List.map_cons, List.flatMap_cons]
      by_cases hg : g.1 = pk
      · rw [if_pos hg]
        have hnotin : pk ∉ gs.map (fun x => x.1) := hg ▸ hhead
        have hmapid : gs.map (fun x => if x.1 = pk then (x.1, x.2 ++ [ev]) else x) =
            gs := by
          have h1 : gs.map (fun x => if x.1 = pk then (x.1, x.2 ++ [ev]) else x) =
              gs.map id := by
            refine List.map_congr_left ?_
            intro x hx
            have hxk : ¬ x.1 = pk := fun hxk =>
              hnotin (List.mem_map.mpr ⟨x, hx, hxk⟩)
            simp [hxk]
          rw [h1, List.map_id]
        rw [hmapid]
        show List.Perm ((g.2 ++ [ev]) ++ gs.flatMap (fun g => g.2))
          (ev :: (g.2 ++ gs.flatMap (fun g => g.2)))
        refine (List.perm_append_comm.append_right _).trans ?_
        show List.Perm (([ev] ++ g.2) ++ gs.flatMap (fun g => g.2)) _
        rw [List.append_assoc]
        exact List.Perm.refl _
      · rw [if_neg hg]
        have hanygs : (gs.any (fun x => x.1 = pk)) = true := by
          rcases List.any_eq_true.mp hany with ⟨x, hx, hxk⟩
          rcases List.mem_cons.mp hx with hxg | hxgs
          · exact absurd (by rw [hxg] at hxk; simpa using hxk) hg
          · exact List.any_eq_true.mpr ⟨x, hxgs, hxk⟩
        have ihgs := ih htail
        unfold groupAppend at ihgs
        rw [if_pos hanygs] at ihgs
        refine (List.Perm.append_left g.2 ihgs).trans ?_
        exact List.perm_middle
    · rw [if_neg hany]
      show List.Perm (((g :: gs) ++ [(pk, [ev])]).flatMap (fun g => g.2)) _
      rw [List.flatMap_append]
      simp only [List.flatMap_cons, List.flatMap_nil, List.append_nil]
      refine List.perm_append_comm.trans ?_
      exact List.Perm.refl _

/-- Flattening the grouped fold output is, up to permutation, the filterMap
of the per-entry decisions. -/
theorem fold_groups_flat_perm (now : String)
    (pm : List (CompKey × (EnvRec × ComponentRec))) :
    ∀ (entries : List (CompKey × (EnvRec × ComponentRec)))
      (out : List (String × List HistoryEvent)), (out.map (fun x => x.1)).Nodup →
      List.Perm
        ((entries.foldl (fun out entry =>
            match tag_change_event_of now pm entry with
            | some ev => groupAppend out entry.1.1 ev
            | none => out) out).flatMap (fun g => g.2))
        (out.flatMap (fun g => g.2) ++ entries.filterMap (tag_change_event_of now pm)) := by
  intro entries
  induction entries with
  | nil => intro out h; simp
  | cons ent rest ih =>
    intro out hnd
    simp only [List.foldl_cons, List.filterMap_cons]
    cases hev : tag_change_event_of now pm ent with
    | none =>
      dsimp only
      simpa using ih out hnd
    | some ev =>
      dsimp only
      have hnd' := @groupAppend_keys_nodup _ ent.1.1 ev hnd
      refine (ih (groupAppend out ent.1.1 ev) hnd').trans ?_
      refine ((groupAppend_flat_perm hnd).append_right _).trans ?_
      exact List.perm_middle.symm

/-- The per-project sorting step permutes the flattened events. -/
theorem sort_groups_flat_perm (out : List (String × List HistoryEvent)) :
    List.Perm ((out.map (fun g => (g.1, sortByAtDesc g.2))).flatMap (fun g => g.2))
      (out.flatMap (fun g => g.2)) := by
  induction out with
  | nil => exact List.Perm.refl _
  | cons g gs ih =>
    simp only [List.map_cons, List.flatMap_cons]
    exact (sortByAtDesc_perm g.2).append ih

/-- The flattened output of `compute_tag_change_events` is a permutation of
the per-entry decisions over the current component map. -/
theorem compute_tag_change_events_flat_perm (now : String)
    (prev_snapshot : Option SnapshotDoc) (current_snapshot : SnapshotDoc) :
    List.Perm
      ((compute_tag_change_events now prev_snapshot current_snapshot).flatMap
        (fun g => g.2))
      ((component_map current_snapshot).filterMap
        (tag_change_event_of now (component_map (prev_snapshot.getD {})))) := by
  unfold compute_tag_change_events
  dsimp only
  refine (sort_groups_flat_perm _).trans ?_
  refine (fold_groups_flat_perm now _ (component_map current_snapshot) []
    (by simp)).trans ?_
  simp

/-- No event from entries whose key differs from `k` counts towards `k`. -/
theorem filterMap_count_zero {now : String}
    {pm : List (CompKey × (EnvRec × ComponentRec))}
    {m : List (CompKey × (EnvRec × ComponentRec))} (k : CompKey)
    (hfacts : ∀ x ∈ m, compEntryFacts x) (hne : ∀ x ∈ m, x.1 ≠ k) :
    ((m.filterMap (tag_change_event_of now pm)).countP (eventHasKey k)) = 0 := by
  induction m with
  | nil => rfl
  | cons ent rest ih =>
    simp only [List.filterMap_cons]
    cases hev : tag_change_event_of now pm ent with
    | none =>
      dsimp only
      exact ih (fun x hx => hfacts x (List.mem_cons_of_mem _ hx))
        (fun x hx => hne x (List.mem_cons_of_mem _ hx))
    | some ev =>
      dsimp only
      rw [List.countP_cons]
      obtain ⟨h1, h2, h3⟩ :=
        tag_change_event_fields (hfacts ent (List.mem_cons_self _ _)) hev
      have hfalse : eventHasKey k ev = false := by
        unfold eventHasKey
        refine decide_eq_false ?_
        rintro ⟨e1, e2, e3⟩
        refine hne ent (List.mem_cons_self _ _) ?_
        rw [h1] at e1
        rw [h2] at e2
        rw [h3] at e3
        exact Prod.ext_iff.mpr ⟨e1, Prod.ext_iff.mpr ⟨e2, e3⟩⟩
      rw [hfalse]
      simp [ih (fun x hx => hfacts x (List.mem_cons_of_mem _ hx))
        (fun x hx => hne x (List.mem_cons_of_mem _ hx))]

/-- The number of emitted events for the key of a stored entry is one exactly
when the entry's decision fires. -/
theorem filterMap_count_key {now : String}
    {pm : List (CompKey × (EnvRec × ComponentRec))}
    {m : List (CompKey × (EnvRec × ComponentRec))} (k : CompKey)
    (v : EnvRec × ComponentRec) (hnd : (m.map (fun x => x.1)).Nodup)
    (hfacts : ∀ x ∈ m, compEntryFacts x) (hmem : (k, v) ∈ m) :
    ((m.filterMap (tag_change_event_of now pm)).countP (eventHasKey k)) =
      (if (tag_change_event_of now pm (k, v)).isSome then 1 else 0) := by
  induction m with
  | nil => cases hmem
  | cons ent rest ih =>
    have hnd1 : (ent.1 :: rest.map (fun x => x.1)).Nodup := by
      rw [← List.map_cons]
      exact hnd
    obtain ⟨hhead, htail⟩ := List.nodup_cons.mp hnd1
    rcases List.mem_cons.mp hmem with heq | hmemr
    · have hent : ent = (k, v) := heq.symm
      subst hent
      simp only [List.filterMap_cons]
      have hnotin : ∀ x ∈ rest, x.1 ≠ k := by
        intro x hx hxk
        exact hhead (List.mem_map.mpr ⟨x, hx, hxk⟩)
      cases hev : tag_change_event_of now pm (k, v) with
      | none =>
        dsimp only
        rw [filterMap_count_zero k (fun x hx => hfacts x (List.mem_cons_of_mem _ hx))
          hnotin]
        simp
      | some ev =>
        dsimp only
        rw [List.countP_cons]
        obtain ⟨h1, h2, h3⟩ :=
          tag_change_event_fields (hfacts (k, v) (List.mem_cons_self _ _)) hev
        have htrue : eventHasKey k ev = true := by
          unfold eventHasKey
          exact decide_eq_true ⟨h1, h2, h3⟩
        rw [htrue,
          filterMap_count_zero k (fun x hx => hfacts x (List.mem_cons_of_mem _ hx))
            hnotin]
        simp
    · have hentk : ent.1 ≠ k := by
        intro h
        exact hhead (h ▸ List.mem_map.mpr ⟨(k, v), hmemr, rfl⟩)
      simp only [List.filterMap_cons]
      cases hev : tag_change_event_of now pm ent with
      | none =>
        dsimp only
        exact ih htail (fun x hx => hfacts x (List.mem_cons_of_mem _ hx)) hmemr
      | some ev =>
        dsimp only
        rw [List.countP_cons]
        obtain ⟨h1, h2, h3⟩ :=
          tag_change_event_fields (hfacts ent (List.mem_cons_self _ _)) hev
        have hfalse : eventHasKey k ev = false := by
          unfold eventHasKey
          refine decide_eq_false ?_
          rintro ⟨e1, e2, e3⟩
          refine hentk ?_
          rw [h1] at e1
          rw [h2] at e2
          rw [h3] at e3
          exact Prod.ext_iff.mpr ⟨e1, Prod.ext_iff.mpr ⟨e2, e3⟩⟩
        rw [hfalse]
        simp [ih htail (fun x hx => hfacts x (List.mem_cons_of_mem _ hx)) hmemr]

/-- C3: tag-change event derivation and identity.  (1) `_mk_history_event`
emits kind `TAG_CHANGE`, `at` is the component's stripped `deployedAt`
falling back to the run's current time, `fromBuild`/`toBuild` are the final
numeric groups of the tags, and the id is
`{sha}:{project}:{env}:{component}:{toTag}` when a sha can be extracted from
the deployer commit URL and `{project}:{env}:{component}:{toTag}:{at}`
otherwise.  (2) The final numeric groups of scenario 1's tags.  (3) For
every `(project, env, component)` key present in both snapshots, exactly one
event for that key is emitted iff both tags are non-empty and differ. -/
theorem C3_tag_change_event_derivation :
    (∀ now project_key : String, ∀ env : EnvRec, ∀ comp : ComponentRec,
      ∀ from_tag to_tag : String,
      (mk_history_event now project_key env comp from_tag to_tag).kind = "TAG_CHANGE" ∧
      (mk_history_event now project_key env comp from_tag to_tag).at_ =
        (if pyStrip comp.deployedAt ≠ "" then pyStrip comp.deployedAt else now) ∧
      (mk_history_event now project_key env comp from_tag to_tag).fromBuild =
        extract_build_number from_tag ∧
      (mk_history_event now project_key env comp from_tag to_tag).toBuild =
        extract_build_number to_tag ∧
      (mk_history_event now project_key env comp from_tag to_tag).id =
        (if extract_commit_sha (pyStrip comp.deployerCommitUrl) ≠ "" then
          extract_commit_sha (pyStrip comp.deployerCommitUrl) ++ ":" ++ project_key ++
            ":" ++ (normalize_env_key env.key).getD "" ++ ":" ++ pyStrip comp.name ++
            ":" ++ to_tag
        else
          project_key ++ ":" ++ (normalize_env_key env.key).getD "" ++ ":" ++
            pyStrip comp.name ++ ":" ++ to_tag ++ ":" ++
            (mk_history_event now project_key env comp from_tag to_tag).at_)) ∧
    extract_build_number "svc-v0.0.10" = "10" ∧
    extract_build_number "svc-v0.0.11" = "11" ∧
    (∀ now : String, ∀ prev cur : SnapshotDoc, ∀ k : CompKey,
      ∀ env penv : EnvRec, ∀ comp pcomp : ComponentRec,
      dictLookup (component_map cur) k = some (env, comp) →
      dictLookup (component_map prev) k = some (penv, pcomp) →
      (((compute_tag_change_events now (some prev) cur).flatMap (fun g => g.2)).countP
          (eventHasKey k)) =
        (if pyStrip pcomp.tag ≠ "" ∧ pyStrip comp.tag ≠ "" ∧
            pyStrip pcomp.tag ≠ pyStrip comp.tag
         then 1 else 0)) := by
  refine ⟨?_, by decide, by decide, ?_⟩
  · intro now project_key env comp from_tag to_tag
    exact ⟨rfl, rfl, rfl, rfl, rfl⟩
  · intro now prev cur k env penv comp pcomp hcur hprev
    rw [List.Perm.countP_eq (eventHasKey k)
      (compute_tag_change_events_flat_perm now (some prev) cur)]
    rw [filterMap_count_key k (env, comp) (component_map_keys_nodup cur)
      (component_map_facts cur) (dictLookup_mem hcur)]
    unfold tag_change_event_of
    dsimp only
    rw [show dictLookup (component_map ((some prev).getD {})) k = some (penv, pcomp)
      from hprev]
    dsimp only
    by_cases hcond : (pyStrip pcomp.tag ≠ "" ∧ pyStrip comp.tag ≠ "" ∧
        pyStrip pcomp.tag ≠ pyStrip comp.tag)
    · rw [if_pos hcond, if_pos hcond]
      rfl
    · rw [if_neg hcond, if_neg hcond]
      rfl

/-- C3 witness: scenario 1 — the tag change `svc-v0.0.10 → svc-v0.0.11` on
`(P1, qa, X)` emits exactly one event, with id `abc:P1:qa:X:svc-v0.0.11`,
fromBuild `10`, and `at` taken from the component's `deployedAt`. -/
theorem C3_tag_change_event_derivation_witness :
    (((compute_tag_change_events "2026-01-19T12:34:56+00:00" (some c3PrevDoc)
        c3CurDoc).flatMap (fun g => g.2)).countP
      (eventHasKey ("P1", "qa", "X"))) = 1 ∧
    (((compute_tag_change_events "2026-01-19T12:34:56+00:00" (some c3PrevDoc)
        c3CurDoc).flatMap (fun g => g.2)).map (fun e => e.id)) =
      ["abc:P1:qa:X:svc-v0.0.11"] ∧
    (((compute_tag_change_events "2026-01-19T12:34:56+00:00" (some c3PrevDoc)
        c3CurDoc).flatMap (fun g => g.2)).map (fun e => e.fromBuild)) = ["10"] ∧
    (((compute_tag_change_events "2026-01-19T12:34:56+00:00" (some c3PrevDoc)
        c3CurDoc).flatMap (fun g => g.2)).map (fun e => e.at_)) =
      ["2026-01-19T12:00:00Z"] := by
  refine ⟨?_, by decide, by decide, by decide⟩
  rw [C3_tag_change_event_derivation.2.2.2 "2026-01-19T12:34:56+00:00" c3PrevDoc c3CurDoc
    ("P1", "qa", "X") c3CurEnv c3PrevEnv c3CurComp c3PrevComp (by decide) (by decide)]
  decide
/-! ## Theorems for C1 -/

/-- A floor step leaves every other stage's presence untouched. -/
theorem floor_step_pres_other (pp : Stage → Bool) (pm : Stage → Option MetaEntry)
    (st : (Stage → Bool) × (Stage → Option MetaEntry)) (stage s : Stage)
    (hne : ¬ s = stage) :
    (floor_step pp pm st stage).1 s = st.1 s := by
  unfold floor_step
  by_cases h : (pp stage && !(st.1 stage)) = true
  · rw [if_pos h]
    show setStage st.1 stage true s = st.1 s
    unfold setStage
    rw [if_neg hne]
  · rw [if_neg h]

/-- A floor step leaves every other stage's metadata untouched. -/
theorem floor_step_meta_other (pp : Stage → Bool) (pm : Stage → Option MetaEntry)
    (st : (Stage → Bool) × (Stage → Option MetaEntry)) (stage s : Stage)
    (hne : ¬ s = stage) :
    (floor_step pp pm st stage).2 s = st.2 s := by
  unfold floor_step
  by_cases h : (pp stage && !(st.1 stage)) = true
  · rw [if_pos h]
    by_cases hmt : metaTruthy (st.2 stage) = true
    · rw [if_pos hmt]
    · rw [if_neg hmt]
      cases hpe : pm stage with
      | none => rfl
      | some pmE =>
        dsimp only
        by_cases hne2 : (!pmE.isEmptyDict) = true
        · rw [if_pos hne2]
          show setStage st.2 stage (some (carry_forward_meta pmE)) s = st.2 s
          unfold setStage
          rw [if_neg hne]
        · rw [if_neg hne2]
  · rw [if_neg h]

/-- The presence a floor step writes at its own stage. -/
theorem floor_step_pres_self (pp : Stage → Bool) (pm : Stage → Option MetaEntry)
    (st : (Stage → Bool) × (Stage → Option MetaEntry)) (stage : Stage) :
    (floor_step pp pm st stage).1 stage =
      (if pp stage && !(st.1 stage) then true else st.1 stage) := by
  unfold floor_step
  by_cases h : (pp stage && !(st.1 stage)) = true
  · rw [if_pos h, if_pos h]
    show setStage st.1 stage true stage = true
    unfold setStage
    rw [if_pos rfl]
  · rw [if_neg h, if_neg h]

/-- The metadata a floor step writes at its own stage. -/
theorem floor_step_meta_self (pp : Stage → Bool) (pm : Stage → Option MetaEntry)
    (st : (Stage → Bool) × (Stage → Option MetaEntry)) (stage : Stage) :
    (floor_step pp pm st stage).2 stage =
      (if pp stage && !(st.1 stage) then
        (if metaTruthy (st.2 stage) then st.2 stage
         else
           match pm stage with
           | some pmE =>
             if !pmE.isEmptyDict then some (carry_forward_meta pmE) else st.2 stage
           | none => st.2 stage)
       else st.2 stage) := by
  unfold floor_step
  by_cases h : (pp stage && !(st.1 stage)) = true
  · rw [if_pos h, if_pos h]
    by_cases hmt : metaTruthy (st.2 stage) = true
    · rw [if_pos hmt, if_pos hmt]
    · rw [if_neg hmt, if_neg hmt]
      cases hpe : pm stage with
      | none => rfl
      | some pmE =>
        dsimp only
        by_cases hne2 : (!pmE.isEmptyDict) = true
        · rw [if_pos hne2, if_pos hne2]
          show setStage st.2 stage (some (carry_forward_meta pmE)) stage = _
          unfold setStage
          rw [if_pos rfl]
        · rw [if_neg hne2, if_neg hne2]
  · rw [if_neg h, if_neg h]

/-- Pointwise evaluation of the whole persistence floor: each stage is
processed exactly once, on the original values. -/
theorem apply_persistence_floor_eval (pp : Stage → Bool) (pm : Stage → Option MetaEntry)
    (p : Stage → Bool) (m : Stage → Option MetaEntry) (s : Stage) :
    (apply_persistence_floor pp pm p m).1 s = (if pp s && !(p s) then true else p s) ∧
    (apply_persistence_floor pp pm p m).2 s =
      (if pp s && !(p s) then
        (if metaTruthy (m s) then m s
         else
           match pm s with
           | some pmE => if !pmE.isEmptyDict then some (carry_forward_meta pmE) else m s
           | none => m s)
       else m s) := by
  have hrep : apply_persistence_floor pp pm p m =
      floor_step pp pm (floor_step pp pm (floor_step pp pm
        (floor_step pp pm (p, m) .DEV) .QA) .UAT) .PROD := rfl
  cases s with
  | DEV =>
    constructor
    · rw [hrep, floor_step_pres_other pp pm _ .PROD _ (by decide),
        floor_step_pres_other pp pm _ .UAT _ (by decide),
        floor_step_pres_other pp pm _ .QA _ (by decide),
        floor_step_pres_self pp pm _ .DEV]
    · rw [hrep, floor_step_meta_other pp pm _ .PROD _ (by decide),
        floor_step_meta_other pp pm _ .UAT _ (by decide),
        floor_step_meta_other pp pm _ .QA _ (by decide),
        floor_step_meta_self pp pm _ .DEV]
  | QA =>
    constructor
    · rw [hrep, floor_step_pres_other pp pm _ .PROD _ (by decide),
        floor_step_pres_other pp pm _ .UAT _ (by decide),
        floor_step_pres_self pp pm _ .QA,
        floor_step_pres_other pp pm _ .DEV _ (by decide)]
    · rw [hrep, floor_step_meta_other pp pm _ .PROD _ (by decide),
        floor_step_meta_other pp pm _ .UAT _ (by decide),
        floor_step_meta_self pp pm _ .QA,
        floor_step_pres_other pp pm _ .DEV _ (by decide),
        floor_step_meta_other pp pm _ .DEV _ (by decide)]
  | UAT =>
    constructor
    · rw [hrep, floor_step_pres_other pp pm _ .PROD _ (by decide),
        floor_step_pres_self pp pm _ .UAT,
        floor_step_pres_other pp pm _ .QA _ (by decide),
        floor_step_pres_other pp pm _ .DEV _ (by decide)]
    · rw [hrep, floor_step_meta_other pp pm _ .PROD _ (by decide),
        floor_step_meta_self pp pm _ .UAT,
        floor_step_pres_other pp pm _ .QA _ (by decide),
        floor_step_pres_other pp pm _ .DEV _ (by decide),
        floor_step_meta_other pp pm _ .QA _ (by decide),
        floor_step_meta_other pp pm _ .DEV _ (by decide)]
  | PROD =>
    constructor
    · rw [hrep, floor_step_pres_self pp pm _ .PROD,
        floor_step_pres_other pp pm _ .UAT _ (by decide),
        floor_step_pres_other pp pm _ .QA _ (by decide),
        floor_step_pres_other pp pm _ .DEV _ (by decide)]
    · rw [hrep, floor_step_meta_self pp pm _ .PROD,
        floor_step_pres_other pp pm _ .UAT _ (by decide),
        floor_step_pres_other pp pm _ .QA _ (by decide),
        floor_step_pres_other pp pm _ .DEV _ (by decide),
        floor_step_meta_other pp pm _ .UAT _ (by decide),
        floor_step_meta_other pp pm _ .QA _ (by decide),
        floor_step_meta_other pp pm _ .DEV _ (by decide)]

/-- C1 counterexample: the previous snapshot marked QA present with a
time-aware metadata entry, the current run set nothing; the floor keeps QA
true and carries the entry forward, but — because `setdefault` keeps an
existing `source` — the carried entry's source is `"time_aware_build"`, not
the claimed `"persisted_prev_snapshot"`. -/
theorem C1_persistence_floor_counterexample :
    (apply_persistence_floor (fun s => match s with | .QA => true | _ => false) c1PrevMeta
        (fun _ => false) (fun _ => none)).1 Stage.QA = true ∧
    ((apply_persistence_floor (fun s => match s with | .QA => true | _ => false) c1PrevMeta
        (fun _ => false) (fun _ => none)).2 Stage.QA).isSome = true ∧
    (((apply_persistence_floor (fun s => match s with | .QA => true | _ => false) c1PrevMeta
        (fun _ => false) (fun _ => none)).2 Stage.QA).bind MetaEntry.source) =
      some "time_aware_build" ∧
    "time_aware_build" ≠ "persisted_prev_snapshot" := by
  refine ⟨by decide, by decide, by decide, by decide⟩

/-- C1 amended: the persistence floor holds — every stage true in the
previous snapshot stays true, the current run's presence and metadata are
never overwritten, and a previously-true stage the current run did not set
gets the previous metadata entry carried forward — but the carried entry's
`source` is only DEFAULTED to `"persisted_prev_snapshot"` (via `setdefault`)
when the previous entry has no source of its own; an existing source (e.g.
`"time_aware_build"`) is preserved.  `merge_deployment_presence` likewise
keeps a stage present iff the current or the historical snapshot has it,
with the current metadata taking precedence. -/
theorem C1_persistence_floor_amended :
    (∀ pp pm : _, ∀ p : Stage → Bool, ∀ m : Stage → Option MetaEntry, ∀ stage : Stage,
      (pp stage = true → (apply_persistence_floor pp pm p m).1 stage = true) ∧
      (p stage = true → (apply_persistence_floor pp pm p m).1 stage = true) ∧
      (p stage = true → (apply_persistence_floor pp pm p m).2 stage = m stage) ∧
      (∀ pmE : MetaEntry, p stage = false → metaTruthy (m stage) = false →
        pm stage = some pmE → pmE.isEmptyDict = false → pp stage = true →
        (apply_persistence_floor pp pm p m).2 stage = some (carry_forward_meta pmE) ∧
        (carry_forward_meta pmE).source =
          some (pmE.source.getD "persisted_prev_snapshot")) ∧
      (pp stage = false → (apply_persistence_floor pp pm p m).1 stage = p stage ∧
        (apply_persistence_floor pp pm p m).2 stage = m stage)) ∧
    (∀ current historical : TicketPresence, ∀ stage : Stage,
      ((merge_deployment_presence current historical).envPresence stage =
        (current.envPresence stage || historical.envPresence stage)) ∧
      (current.envPresence stage = true →
        (merge_deployment_presence current historical).envPresenceMeta stage =
          current.envPresenceMeta stage) ∧
      (current.envPresence stage = false → historical.envPresence stage = true →
        (merge_deployment_presence current historical).envPresenceMeta stage =
          historical.envPresenceMeta stage)) := by
  constructor
  · intro pp pm p m stage
    obtain ⟨hp, hmeval⟩ := apply_persistence_floor_eval pp pm p m stage
    refine ⟨?_, ?_, ?_, ?_, ?_⟩
    · intro hpp
      rw [hp, hpp]
      cases hcur : p stage <;> rfl
    · intro hcur
      rw [hp, hcur]
      rw [show (pp stage && !true) = false from by rw [Bool.not_true, Bool.and_false]]
      rfl
    · intro hcur
      rw [hmeval, hcur]
      rw [show (pp stage && !true) = false from by rw [Bool.not_true, Bool.and_false]]
      rfl
    · intro pmE hcur hmt hpm hemp hpp
      constructor
      · rw [hmeval, hcur, hpp, hmt, hpm]
        dsimp only
        rw [hemp]
        rfl
      · rfl
    · intro hpp
      rw [hp, hmeval, hpp]
      exact ⟨rfl, rfl⟩
  · intro current historical stage
    refine ⟨?_, ?_, ?_⟩
    · show (merge_presence_stage current historical stage).1 = _
      unfold merge_presence_stage
      cases hc : current.envPresence stage with
      | true => rw [if_pos rfl]; rfl
      | false =>
        rw [if_neg (by simp)]
        cases hh : historical.envPresence stage with
        | true => rw [if_pos rfl]; rfl
        | false => rw [if_neg (by simp)]; rfl
    · intro hc
      show (merge_presence_stage current historical stage).2 = _
      unfold merge_presence_stage
      rw [hc, if_pos rfl]
    · intro hc hh
      show (merge_presence_stage current historical stage).2 = _
      unfold merge_presence_stage
      rw [hc, hh, if_neg (by simp), if_pos rfl]

/-- C1 witness: a previous QA entry without a `source` is carried forward
with `source = "persisted_prev_snapshot"`. -/
theorem C1_persistence_floor_amended_witness :
    (apply_persistence_floor (fun s => match s with | .QA => true | _ => false)
        (fun s => match s with
          | .QA => some { when := some "2026-01-01T00:00:00Z" } | _ => none)
        (fun _ => false) (fun _ => none)).2 Stage.QA =
      some (carry_forward_meta { when := some "2026-01-01T00:00:00Z" }) ∧
    (carry_forward_meta { when := some "2026-01-01T00:00:00Z" }).source =
      some "persisted_prev_snapshot" :=
  (C1_persistence_floor_amended.1 (fun s => match s with | .QA => true | _ => false)
      (fun s => match s with
        | .QA => some { when := some "2026-01-01T00:00:00Z" } | _ => none)
      (fun _ => false) (fun _ => none) Stage.QA).2.2.2.1
    { when := some "2026-01-01T00:00:00Z" } rfl (by decide) rfl (by decide) rfl

/-! ## Theorems for C4 -/

/-- Step lemma: a response that is neither 429 nor 5xx is returned at once,
after only the rate-limit-header sleep. -/
theorem api_step_return {cfg : RetryCfg} {outcomes : Nat → HttpOutcome} {method : String}
    {attempt fuel status : Nat} {ra rr : Option String}
    (hm : pyUpper method = "GET" ∨ pyUpper method = "POST")
    (ho : outcomes attempt = .resp status ra rr)
    (h429 : status ≠ 429) (h5 : ¬(500 ≤ status ∧ status < 600)) :
    api_request_attempts cfg outcomes method attempt (fuel + 1) =
      (.ok status, rate_limit_sleeps rr) := by
  simp only [api_request_attempts]
  rw [if_pos hm, ho]
  dsimp only
  rw [if_neg h429, if_neg h5]

/-- Step lemma: a non-final 429 whose `Retry-After` header is present but
non-numeric sleeps the UNCLAMPED `initial_backoff * 2 ^ attempt` and
retries. -/
theorem api_step_429_nonnumeric {cfg : RetryCfg} {outcomes : Nat → HttpOutcome}
    {method : String} {attempt fuel : Nat} {ra : String} {rr : Option String}
    (hm : pyUpper method = "GET" ∨ pyUpper method = "POST")
    (ho : outcomes attempt = .resp 429 (some ra) rr)
    (hra : ra ≠ "") (hpf : pyParseFloat ra = none) :
    api_request_attempts cfg outcomes method attempt (fuel + 2) =
      ((api_request_attempts cfg outcomes method (attempt + 1) (fuel + 1)).1,
        rate_limit_sleeps rr ++ cfg.initial_backoff * 2 ^ attempt ::
          (api_request_attempts cfg outcomes method (attempt + 1) (fuel + 1)).2) := by
  show api_request_attempts cfg outcomes method attempt ((fuel + 1) + 1) = _
  simp only [api_request_attempts]
  rw [if_pos hm, ho]
  dsimp only
  rw [if_pos rfl, if_pos hra, hpf]
  dsimp only
  rw [if_neg (Nat.succ_ne_zero fuel)]

/-- C4 counterexample: with `initial_backoff = 100`, `max_backoff = 60` and a
first-attempt 429 carrying the non-numeric header `Retry-After: soon`, the
code sleeps 100 s, while the claimed policy ("else the backoff", i.e.
`min(initial * 2^attempt, max)`) would sleep 60 s. -/
theorem C4_retry_policy_counterexample :
    api_request_with_retry ⟨3, 100, 60⟩ c4Outcomes "GET" = (.ok 200, [100]) ∧
    min ((100 : ℚ) * 2 ^ (0 : Nat)) 60 = 60 ∧ (100 : ℚ) * 2 ^ (0 : Nat) = 100 ∧
    ((100 : ℚ) * 2 ^ (0 : Nat) ≠ min ((100 : ℚ) * 2 ^ (0 : Nat)) 60) := by
  refine ⟨?_, by norm_num, by norm_num, by norm_num⟩
  show api_request_attempts ⟨3, 100, 60⟩ c4Outcomes "GET" 0 (1 + 2) = _
  rw [api_step_429_nonnumeric (Or.inl (by decide)) (show c4Outcomes 0 = _ from rfl)
    (by decide) (by decide)]
  rw [api_step_return (Or.inl (by decide)) (show c4Outcomes 1 = .resp 200 none none from rfl)
    (by decide) (by decide)]
  show ((Except.ok 200 : Except ApiError Nat), [(100 : ℚ) * 2 ^ (0 : Nat)]) = _
  norm_num

/-- C4 amended: the retry policy as claimed, except that a 429 whose
`Retry-After` header is present but non-numeric waits the UNCLAMPED
`initial_backoff * 2 ^ attempt` (the `min(…, max)` clamp applies to 5xx,
network errors, and 429 without the header).  The conjuncts: (1) non-429,
non-5xx responses return immediately after only the rate-limit sleep;
(2) 5xx retries with the clamped backoff and raises on the last attempt;
(3) 429 with a numeric `Retry-After` waits that value; (4) 429 with a
non-numeric header waits the unclamped backoff; (5) 429 without the header
waits the clamped backoff; (6) network timeouts retry with the clamped
backoff and re-raise on the last attempt; (7) a parsed
`X-RateLimit-Remaining` below 5 sleeps 1 s, below 10 sleeps 0.5 s, else
nothing; (8) an all-5xx run raises after sleeping the full clamped
exponential schedule. -/
theorem C4_retry_policy_amended (cfg : RetryCfg) (outcomes : Nat → HttpOutcome)
    (method : String)
    (hm : pyUpper method = "GET" ∨ pyUpper method = "POST") :
    (∀ attempt fuel status : Nat, ∀ ra rr : Option String,
      outcomes attempt = .resp status ra rr → status ≠ 429 →
      ¬(500 ≤ status ∧ status < 600) →
      api_request_attempts cfg outcomes method attempt (fuel + 1) =
        (.ok status, rate_limit_sleeps rr)) ∧
    (∀ attempt fuel status : Nat, ∀ ra rr : Option String,
      outcomes attempt = .resp status ra rr → 500 ≤ status → status < 600 →
      (api_request_attempts cfg outcomes method attempt (fuel + 2) =
        ((api_request_attempts cfg outcomes method (attempt + 1) (fuel + 1)).1,
          rate_limit_sleeps rr ++
            min (cfg.initial_backoff * 2 ^ attempt) cfg.max_backoff ::
              (api_request_attempts cfg outcomes method (attempt + 1) (fuel + 1)).2)) ∧
      api_request_attempts cfg outcomes method attempt 1 =
        (.error (.httpStatus status), rate_limit_sleeps rr)) ∧
    (∀ attempt fuel : Nat, ∀ ra : String, ∀ rr : Option String, ∀ w : ℚ,
      outcomes attempt = .resp 429 (some ra) rr → ra ≠ "" → pyParseFloat ra = some w →
      api_request_attempts cfg outcomes method attempt (fuel + 2) =
        ((api_request_attempts cfg outcomes method (attempt + 1) (fuel + 1)).1,
          rate_limit_sleeps rr ++ w ::
            (api_request_attempts cfg outcomes method (attempt + 1) (fuel + 1)).2)) ∧
    (∀ attempt fuel : Nat, ∀ ra : String, ∀ rr : Option String,
      outcomes attempt = .resp 429 (some ra) rr → ra ≠ "" → pyParseFloat ra = none →
      api_request_attempts cfg outcomes method attempt (fuel + 2) =
        ((api_request_attempts cfg outcomes method (attempt + 1) (fuel + 1)).1,
          rate_limit_sleeps rr ++ cfg.initial_backoff * 2 ^ attempt ::
            (api_request_attempts cfg outcomes method (attempt + 1) (fuel + 1)).2)) ∧
    (∀ attempt fuel : Nat, ∀ rr : Option String,
      outcomes attempt = .resp 429 none rr →
      api_request_attempts cfg outcomes method attempt (fuel + 2) =
        ((api_request_attempts cfg outcomes method (attempt + 1) (fuel + 1)).1,
          rate_limit_sleeps rr ++
            min (cfg.initial_backoff * 2 ^ attempt) cfg.max_backoff ::
              (api_request_attempts cfg outcomes method (attempt + 1) (fuel + 1)).2)) ∧
    (∀ attempt fuel : Nat, outcomes attempt = .timeout →
      (api_request_attempts cfg outcomes method attempt (fuel + 2) =
        ((api_request_attempts cfg outcomes method (attempt + 1) (fuel + 1)).1,
          min (cfg.initial_backoff * 2 ^ attempt) cfg.max_backoff ::
            (api_request_attempts cfg outcomes method (attempt + 1) (fuel + 1)).2)) ∧
      api_request_attempts cfg outcomes method attempt 1 = (.error .timeout, [])) ∧
    (∀ rr : String, ∀ r : Int, pyParseInt rr = some r → rr ≠ "" →
      ((r < 5 → rate_limit_sleeps (some rr) = [1]) ∧
       (5 ≤ r → r < 10 → rate_limit_sleeps (some rr) = [1/2]) ∧
       (10 ≤ r → rate_limit_sleeps (some rr) = []))) ∧
    (∀ status : Nat, 500 ≤ status → status < 600 →
      (∀ i, outcomes i = .resp status none none) →
      ∀ attempt fuel : Nat,
        api_request_attempts cfg outcomes method attempt (fuel + 1) =
          (.error (.httpStatus status),
            (List.range fuel).map
              (fun j => min (cfg.initial_backoff * 2 ^ (attempt + j)) cfg.max_backoff))) := by
  have h5xxStep : ∀ attempt fuel status : Nat, ∀ ra rr : Option String,
      outcomes attempt = .resp status ra rr → 500 ≤ status → status < 600 →
      api_request_attempts cfg outcomes method attempt (fuel + 2) =
        ((api_request_attempts cfg outcomes method (attempt + 1) (fuel + 1)).1,
          rate_limit_sleeps rr ++
            min (cfg.initial_backoff * 2 ^ attempt) cfg.max_backoff ::
              (api_request_attempts cfg outcomes method (attempt + 1) (fuel + 1)).2) := by
    intro attempt fuel status ra rr ho hlo hhi
    show api_request_attempts cfg outcomes method attempt ((fuel + 1) + 1) = _
    simp only [api_request_attempts]
    rw [if_pos hm, ho]
    dsimp only
    rw [if_neg (by omega : ¬ status = 429), if_pos ⟨hlo, hhi⟩,
      if_neg (Nat.succ_ne_zero fuel)]
  have h5xxLast : ∀ attempt status : Nat, ∀ ra rr : Option String,
      outcomes attempt = .resp status ra rr → 500 ≤ status → status < 600 →
      api_request_attempts cfg outcomes method attempt 1 =
        (.error (.httpStatus status), rate_limit_sleeps rr) := by
    intro attempt status ra rr ho hlo hhi
    show api_request_attempts cfg outcomes method attempt (0 + 1) = _
    simp only [api_request_attempts]
    rw [if_pos hm, ho]
    dsimp only
    rw [if_neg (by omega : ¬ status = 429), if_pos ⟨hlo, hhi⟩, if_pos trivial]
  refine ⟨fun attempt fuel status ra rr ho h1 h2 => api_step_return hm ho h1 h2,
    fun attempt fuel status ra rr ho hlo hhi =>
      ⟨h5xxStep attempt fuel status ra rr ho hlo hhi, h5xxLast attempt status ra rr ho hlo hhi⟩,
    ?_, fun attempt fuel ra rr ho hra hpf => api_step_429_nonnumeric hm ho hra hpf,
    ?_, ?_, ?_, ?_⟩
  · intro attempt fuel ra rr w ho hra hpf
    show api_request_attempts cfg outcomes method attempt ((fuel + 1) + 1) = _
    simp only [api_request_attempts]
    rw [if_pos hm, ho]
    dsimp only
    rw [if_pos rfl, if_pos hra, hpf]
    dsimp only
    rw [if_neg (Nat.succ_ne_zero fuel)]
  · intro attempt fuel rr ho
    show api_request_attempts cfg outcomes method attempt ((fuel + 1) + 1) = _
    simp only [api_request_attempts]
    rw [if_pos hm, ho]
    dsimp only
    rw [if_pos rfl]
    rw [if_neg (Nat.succ_ne_zero fuel)]
  · intro attempt fuel ho
    constructor
    · show api_request_attempts cfg outcomes method attempt ((fuel + 1) + 1) = _
      simp only [api_request_attempts]
      rw [if_pos hm, ho]
      dsimp only
      rw [if_neg (Nat.succ_ne_zero fuel)]
    · show api_request_attempts cfg outcomes method attempt (0 + 1) = _
      simp only [api_request_attempts]
      rw [if_pos hm, ho]
      dsimp only
      rw [if_pos trivial]
  · intro rr r hpi hrr
    refine ⟨fun hr5 => ?_, fun hr5 hr10 => ?_, fun hr10 => ?_⟩
    · unfold rate_limit_sleeps
      dsimp only
      rw [if_neg hrr, hpi]
      dsimp only
      rw [if_pos (by omega : r < 10), if_pos hr5]
    · unfold rate_limit_sleeps
      dsimp only
      rw [if_neg hrr, hpi]
      dsimp only
      rw [if_pos hr10, if_neg (by omega : ¬ r < 5)]
    · unfold rate_limit_sleeps
      dsimp only
      rw [if_neg hrr, hpi]
      dsimp only
      rw [if_neg (by omega : ¬ r < 10)]
  · intro status hlo hhi hall attempt fuel
    induction fuel generalizing attempt with
    | zero =>
      rw [show (0 + 1 : Nat) = 1 from rfl,
        h5xxLast attempt status none none (hall attempt) hlo hhi]
      rfl
    | succ fuel ih =>
      rw [show (fuel + 1 + 1 : Nat) = fuel + 2 from rfl,
        h5xxStep attempt fuel status none none (hall attempt) hlo hhi, ih (attempt + 1)]
      have hmap : (List.range (fuel + 1)).map
          (fun j => min (cfg.initial_backoff * 2 ^ (attempt + j)) cfg.max_backoff) =
          min (cfg.initial_backoff * 2 ^ attempt) cfg.max_backoff ::
            (List.range fuel).map
              (fun j => min (cfg.initial_backoff * 2 ^ (attempt + 1 + j)) cfg.max_backoff) := by
        rw [List.range_succ_eq_map, List.map_cons, List.map_map]
        refine congrArg₂ _ (by rw [Nat.add_zero]) ?_
        refine congrArg (fun f => List.map f (List.range fuel)) ?_
        funext j
        have hje : attempt + Nat.succ j = attempt + 1 + j := by omega
        show min (cfg.initial_backoff * 2 ^ (attempt + Nat.succ j)) cfg.max_backoff = _
        rw [hje]
      rw [hmap]
      rfl

/-- C4 witness: a 404 on the first attempt is returned immediately with no
sleeps. -/
theorem C4_retry_policy_amended_witness :
    api_request_with_retry ⟨3, 1, 60⟩ (fun _ => .resp 404 none none) "GET" =
      (.ok 404, []) :=
  (C4_retry_policy_amended ⟨3, 1, 60⟩ (fun _ => .resp 404 none none) "GET"
      (Or.inl (by decide))).1 0 2 404 none none rfl (by decide) (by decide)

/-- C8: in candidate mode (no env selector) the collector walks the tag
candidates in order; the first candidate whose five metric queries yield at
least one ok numeric value is selected as `usedTags` with its normalized
metrics and no warning, all later candidates are discarded; if no candidate
yields a value the result keeps no tags, all-`None` metrics, all-no_data
reasons, and the no-data warning. -/
theorem C8_candidate_mode_first_ok (ddq : String → Option ℚ × String)
    (base_tags : List String) :
    (∀ pre : List String, ∀ c : String, ∀ post tag_candidates : List String,
      tag_candidates = pre ++ c :: post →
      (∀ c' ∈ pre, dd_any_ok (dd_run_specs ddq (dd_join_tags (base_tags ++ [c']))).1 = false) →
      dd_any_ok (dd_run_specs ddq (dd_join_tags (base_tags ++ [c]))).1 = true →
      datadog_collect_observability ddq base_tags tag_candidates none none =
        { usedTags := some (base_tags ++ [c]),
          metrics := (dd_run_specs ddq (dd_join_tags (base_tags ++ [c]))).1,
          reasons := some (dd_run_specs ddq (dd_join_tags (base_tags ++ [c]))).2,
          warnings := [] }) ∧
    (∀ tag_candidates : List String,
      (∀ c ∈ tag_candidates,
        dd_any_ok (dd_run_specs ddq (dd_join_tags (base_tags ++ [c]))).1 = false) →
      datadog_collect_observability ddq base_tags tag_candidates none none =
        { usedTags := none, metrics := {},
          reasons := some ⟨"no_data", "no_data", "no_data", "no_data", "no_data"⟩,
          warnings := [dd_no_data_warning] }) := by
  constructor
  · intro pre
    induction pre with
    | nil =>
      intro c post tag_candidates heq hpre hok
      subst heq
      show dd_candidate_loop ddq base_tags (c :: post) = _
      unfold dd_candidate_loop
      dsimp only
      rw [if_pos hok]
    | cons c'' pre' ih =>
      intro c post tag_candidates heq hpre hok
      subst heq
      show dd_candidate_loop ddq base_tags (c'' :: (pre' ++ c :: post)) = _
      unfold dd_candidate_loop
      dsimp only
      have hcf := hpre c'' (List.mem_cons_self c'' pre')
      rw [if_neg (by simp [hcf])]
      exact ih c post (pre' ++ c :: post) rfl
        (fun x hx => hpre x (List.mem_cons_of_mem _ hx)) hok
  · intro tag_candidates hall
    induction tag_candidates with
    | nil => rfl
    | cons c rest ih =>
      show dd_candidate_loop ddq base_tags (c :: rest) = _
      unfold dd_candidate_loop
      dsimp only
      have hcf := hall c (List.mem_cons_self c rest)
      rw [if_neg (by simp [hcf])]
      exact ih (fun x hx => hall x (List.mem_cons_of_mem _ hx))

/-- C8 witness: the spec's scenario — `env:qa` yields no data, the cpu query
under `kube_namespace:qa` yields `0.37`; the second candidate is selected,
`cpuPct` is normalized to `37`, and no warning is emitted. -/
theorem C8_candidate_mode_first_ok_witness :
    datadog_collect_observability c8ScenarioOracle [] ["env:qa", "kube_namespace:qa"]
        none none =
      { usedTags := some ["kube_namespace:qa"],
        metrics := (dd_run_specs c8ScenarioOracle (dd_join_tags ["kube_namespace:qa"])).1,
        reasons := some (dd_run_specs c8ScenarioOracle (dd_join_tags ["kube_namespace:qa"])).2,
        warnings := [] } ∧
    (dd_run_specs c8ScenarioOracle (dd_join_tags ["kube_namespace:qa"])).1.cpuPct = some 37 := by
  refine ⟨(C8_candidate_mode_first_ok c8ScenarioOracle []).1 ["env:qa"] "kube_namespace:qa"
      [] ["env:qa", "kube_namespace:qa"] rfl ?_ ?_, ?_⟩
  · intro c' hc'
    have hc'' : c' = "env:qa" := by simpa using hc'
    subst hc''
    decide
  · decide
  · have hjoin : dd_join_tags ["kube_namespace:qa"] = "kube_namespace:qa" := by decide
    rw [hjoin]
    have hq : c8ScenarioOracle (dd_apply_tags dd_cpu_query "kube_namespace:qa") =
        (some (37/100), "ok") := by
      unfold c8ScenarioOracle
      rw [if_pos rfl]
    unfold dd_run_specs dd_query_metric
    dsimp only
    rw [hq]
    norm_num [dd_norm_pct]

/-! ## Theorems for C6 -/

/-- C6: an assembled environment's status is `"warn"` iff some component has a
non-empty warnings list or some other environment-level warning was produced,
and `"healthy"` otherwise; hence every component either has no warnings or
sits in an environment whose status is `"warn"`. -/
theorem C6_env_status_invariant (components : List ComponentRec)
    (laterWarnings : List EnvWarning) :
    (assemble_env_status components laterWarnings = "warn" ↔
      ((∃ c ∈ components, c.warnings ≠ []) ∨ laterWarnings ≠ [])) ∧
    (assemble_env_status components laterWarnings = "healthy" ↔
      ((∀ c ∈ components, c.warnings = []) ∧ laterWarnings = [])) ∧
    (∀ c ∈ components, c.warnings = [] ∨
      assemble_env_status components laterWarnings = "warn") := by
  have hany : (components.any (fun c => !c.warnings.isEmpty) = true) ↔
      (∃ c ∈ components, c.warnings ≠ []) := by
    simp [List.any_eq_true]
  constructor
  · constructor
    · intro h
      unfold assemble_env_status env_status_of build_env_warnings at h
      by_cases ha : components.any (fun c => !c.warnings.isEmpty) = true
      · exact Or.inl (hany.mp ha)
      · simp only [ha] at h
        by_cases hl : laterWarnings = []
        · simp [hl] at h
        · exact Or.inr hl
    · intro h
      unfold assemble_env_status env_status_of build_env_warnings
      rcases h with h | h
      · have := hany.mpr h
        simp [this]
      · by_cases ha : components.any (fun c => !c.warnings.isEmpty) = true
        · simp [ha]
        · simp only [ha]
          simp [h]
  · constructor
    · constructor
      · intro h
        unfold assemble_env_status env_status_of build_env_warnings at h
        by_cases ha : components.any (fun c => !c.warnings.isEmpty) = true
        · simp [ha] at h
        · refine ⟨fun c hc => ?_, ?_⟩
          · by_contra hne
            exact absurd (hany.mpr ⟨c, hc, hne⟩) ha
          · by_cases hl : laterWarnings = []
            · exact hl
            · simp [ha, hl] at h
      · rintro ⟨hc, hl⟩
        unfold assemble_env_status env_status_of build_env_warnings
        have ha : components.any (fun c => !c.warnings.isEmpty) = false := by
          by_contra hcon
          rw [Bool.not_eq_false] at hcon
          obtain ⟨c, hcmem, hcw⟩ := hany.mp hcon
          exact hcw (hc c hcmem)
        simp [ha, hl]
    · intro c hc
      by_cases hw : c.warnings = []
      · exact Or.inl hw
      · refine Or.inr ?_
        unfold assemble_env_status env_status_of build_env_warnings
        have := hany.mpr ⟨c, hc, hw⟩
        simp [this]

/-- C6 witness: a component with one warning forces status `"warn"`, and that
component indeed satisfies the disjunctive invariant. -/
theorem C6_env_status_invariant_witness :
    let comp : ComponentRec := { name := "svc", warnings := [⟨"NO_KUSTOMIZATION", "missing"⟩] }
    comp.warnings = [] ∨ assemble_env_status [comp] [] = "warn" := by
  intro comp
  exact (C6_env_status_invariant [comp] []).2.2 comp (by simp)

/-! ## Theorems for C7 -/

/-- Appending fresh events to the monthly archive leaves each of them in
exactly one archive file. -/
theorem archiveAppend_count_mem {month : String} {evs : List REvent} {e : REvent}
    (hin : e ∈ evs) :
    ∀ archives : List (String × List REvent), (archives.map (fun g => g.1)).Nodup →
      (∀ g ∈ archives, e ∉ g.2) →
      ((archiveAppend archives month evs).countP (fun g => decide (e ∈ g.2))) = 1 := by
  intro archives
  induction archives with
  | nil =>
    intro _ _
    unfold archiveAppend
    simp [hin]
  | cons g gs ih =>
    intro hnd hnot
    have hnd1 : (g.1 :: gs.map (fun x => x.1)).Nodup := by
      rw [← List.map_cons]
      exact hnd
    obtain ⟨hhead, htail⟩ := List.nodup_cons.mp hnd1
    unfold archiveAppend
    by_cases hany : ((g :: gs).any (fun x => x.1 = month)) = true
    · rw [if_pos hany]
      simp only [List.map_cons, List.countP_cons]
      by_cases hg : g.1 = month
      · rw [if_pos hg]
        have hmonth_notin : month ∉ gs.map (fun x => x.1) := hg ▸ hhead
        have hmapid : gs.map (fun x => if x.1 = month then (x.1, x.2 ++ evs) else x) =
            gs := by
          have h1 : gs.map (fun x => if x.1 = month then (x.1, x.2 ++ evs) else x) =
              gs.map id := by
            refine List.map_congr_left ?_
            intro x hx
            have hxk : ¬ x.1 = month := fun hxk =>
              hmonth_notin (List.mem_map.mpr ⟨x, hx, hxk⟩)
            simp [hxk]
          rw [h1, List.map_id]
        rw [hmapid]
        have hzero : (gs.countP (fun g => decide (e ∈ g.2))) = 0 := by
          rw [List.countP_eq_zero]
          intro a ha
          simp only [decide_eq_true_eq]
          exact hnot a (List.mem_cons_of_mem _ ha)
        have hmem : e ∈ g.2 ++ evs := List.mem_append.mpr (Or.inr hin)
        simp [hzero, hmem]
      · rw [if_neg hg]
        have hanygs : (gs.any (fun x => x.1 = month)) = true := by
          rcases List.any_eq_true.mp hany with ⟨x, hx, hxk⟩
          rcases List.mem_cons.mp hx with hxg | hxgs
          · exact absurd (by rw [hxg] at hxk; simpa using hxk) hg
          · exact List.any_eq_true.mpr ⟨x, hxgs, hxk⟩
        have ihgs := ih htail (fun x hx => hnot x (List.mem_cons_of_mem _ hx))
        unfold archiveAppend at ihgs
        rw [if_pos hanygs] at ihgs
        have hge : e ∉ g.2 := hnot g (List.mem_cons_self _ _)
        simp [hge, ihgs]
    · rw [if_neg hany]
      rw [List.countP_append]
      have hzero : ((g :: gs).countP (fun g => decide (e ∈ g.2))) = 0 := by
        rw [List.countP_eq_zero]
        intro a ha
        simp only [decide_eq_true_eq]
        exact hnot a ha
      simp [hzero, hin]

/-- C7 counterexample: a run whose scan finds no events older than the
retention window performs cleanup (lastCleanup is unset, so it is not
skipped) but leaves both `stats.totalEvents` (stale at 5 with 1 event in the
log) and `retention.lastCleanup` untouched, contrary to the claim that they
are rewritten/updated whenever cleanup runs. -/
theorem C7_retention_counterexample :
    retention_skip c7Oracle c7State = false ∧
    apply_retention_policy c7Oracle c7State = c7State ∧
    (apply_retention_policy c7Oracle c7State).index.lastCleanup = none ∧
    (apply_retention_policy c7Oracle c7State).index.totalEvents = 5 ∧
    (retention_parse_events ((c7State.activeLog).getD [])).length = 1 ∧ (5 : Nat) ≠ 1 ∧
    (none : Option String) ≠ some c7Oracle.nowIso := by
  refine ⟨by decide, by decide, by decide, by decide, by decide, by decide, by decide⟩

/-- C7 amended: cleanup is skipped when `retention.lastCleanup` parses to
less than one day old; when it runs it partitions the active log around
`now − retentionDays` (default 90), rewrites the active log without the old
events, appends them to the cutoff month's archive file (each archived event
then sits in exactly one archive file), and rewrites `totalEvents` and
`lastCleanup` — but the index updates happen ONLY when at least one event was
archived; a run that finds nothing to archive leaves the whole state,
including `lastCleanup`, unchanged. -/
theorem C7_retention_amended :
    (∀ t : TimeOracle, ∀ st : HistoryState, ∀ lc : String, ∀ d : Int,
      st.index.lastCleanup = some lc → t.elapsedDays lc = some d → d < 1 →
      apply_retention_policy t st = st) ∧
    (∀ t : TimeOracle, ∀ st : HistoryState, retention_skip t st = false →
      st.activeLog = none → apply_retention_policy t st = st) ∧
    (∀ t : TimeOracle, ∀ st : HistoryState, ∀ lines : List LogLine,
      retention_skip t st = false → st.activeLog = some lines →
      ((retention_parse_events lines).filter
        (retention_is_old (t.cutoffIsoOf (st.index.days.getD 90)))) = [] →
      apply_retention_policy t st = st) ∧
    (∀ t : TimeOracle, ∀ st : HistoryState, ∀ lines : List LogLine,
      retention_skip t st = false → st.activeLog = some lines →
      (st.archives.map (fun g => g.1)).Nodup →
      ((retention_parse_events lines).filter
        (retention_is_old (t.cutoffIsoOf (st.index.days.getD 90)))) ≠ [] →
      ((apply_retention_policy t st).activeLog =
        some (((retention_parse_events lines).filter
          (fun e => !(retention_is_old (t.cutoffIsoOf (st.index.days.getD 90)) e))).map
            LogLine.event) ∧
       (∀ e : REvent,
         LogLine.event e ∈ ((apply_retention_policy t st).activeLog.getD []) →
         retention_is_old (t.cutoffIsoOf (st.index.days.getD 90)) e = false) ∧
       (apply_retention_policy t st).index.totalEvents =
         ((retention_parse_events lines).filter
           (fun e =>
             !(retention_is_old (t.cutoffIsoOf (st.index.days.getD 90)) e))).length ∧
       (apply_retention_policy t st).index.lastCleanup = some t.nowIso ∧
       (∀ e ∈ (retention_parse_events lines).filter
           (retention_is_old (t.cutoffIsoOf (st.index.days.getD 90))),
         (∀ g ∈ st.archives, e ∉ g.2) →
         ((apply_retention_policy t st).archives.countP
           (fun g => decide (e ∈ g.2))) = 1))) := by
  have hreduce : ∀ t : TimeOracle, ∀ st : HistoryState, ∀ lines : List LogLine,
      retention_skip t st = false → st.activeLog = some lines →
      ((retention_parse_events lines).filter
        (retention_is_old (t.cutoffIsoOf (st.index.days.getD 90)))) ≠ [] →
      apply_retention_policy t st =
        { index :=
            { st.index with
              lastCleanup := some t.nowIso
              totalEvents := ((retention_parse_events lines).filter (fun e =>
                !(retention_is_old (t.cutoffIsoOf (st.index.days.getD 90)) e))).length }
          activeLog := some (((retention_parse_events lines).filter (fun e =>
            !(retention_is_old (t.cutoffIsoOf (st.index.days.getD 90)) e))).map
              LogLine.event)
          archives := archiveAppend st.archives
            (t.cutoffMonthOf (st.index.days.getD 90))
            ((retention_parse_events lines).filter
              (retention_is_old (t.cutoffIsoOf (st.index.days.getD 90)))) } := by
    intro t st lines hskip hlog hne
    unfold apply_retention_policy
    unfold RELEASE_HISTORY_RETENTION_DAYS
    dsimp only
    rw [hskip, if_neg Bool.false_ne_true, hlog]
    dsimp only
    split
    · rfl
    · next hcond =>
        refine absurd (List.isEmpty_iff.mp ?_) hne
        simpa using hcond
  refine ⟨?_, ?_, ?_, ?_⟩
  · intro t st lc d hlc hed hd
    have hskip : retention_skip t st = true := by
      unfold retention_skip
      rw [hlc]
      dsimp only
      rw [hed]
      dsimp only
      exact decide_eq_true hd
    unfold apply_retention_policy
    dsimp only
    rw [if_pos hskip]
  · intro t st hskip hlog
    unfold apply_retention_policy
    dsimp only
    rw [hskip, if_neg Bool.false_ne_true, hlog]
  · intro t st lines hskip hlog hemp
    unfold apply_retention_policy
    unfold RELEASE_HISTORY_RETENTION_DAYS
    dsimp only
    rw [hskip, if_neg Bool.false_ne_true, hlog]
    dsimp only
    split
    · next hcond =>
        rw [hemp] at hcond
        simp at hcond
    · rfl
  · intro t st lines hskip hlog hnd hne
    have hr := hreduce t st lines hskip hlog hne
    rw [hr]
    refine ⟨rfl, ?_, rfl, rfl, ?_⟩
    · intro e hmem
      simp only [Option.getD_some] at hmem
      obtain ⟨e', he', heq⟩ := List.mem_map.mp hmem
      have hpe := List.of_mem_filter he'
      injection heq with heq'
      rw [← heq']
      simpa using hpe
    · intro e hemem hfresh
      exact archiveAppend_count_mem hemem st.archives hnd hfresh

/-- C7 witness: a log with one 90-day-old event, one malformed line and one
recent event is cleaned up: the rewritten log keeps only the recent event,
`totalEvents` becomes 1, `lastCleanup` becomes now, and the old event sits in
exactly one archive file. -/
theorem C7_retention_amended_witness :
    retention_skip c7Oracle c7WitnessState = false ∧
    (apply_retention_policy c7Oracle c7WitnessState).activeLog =
      some [LogLine.event { id := "new1", at_ := "2026-10-01T00:00:00Z" }] ∧
    (apply_retention_policy c7Oracle c7WitnessState).index.totalEvents = 1 ∧
    (apply_retention_policy c7Oracle c7WitnessState).index.lastCleanup =
      some "2026-10-12T00:00:00Z" ∧
    ((apply_retention_policy c7Oracle c7WitnessState).archives.countP
      (fun g => decide
        (({ id := "old1", at_ := "2026-05-01T00:00:00Z" } : REvent) ∈ g.2))) = 1 := by
  have h := C7_retention_amended.2.2.2 c7Oracle c7WitnessState
    [LogLine.event { id := "old1", at_ := "2026-05-01T00:00:00Z" }, LogLine.malformed,
      LogLine.event { id := "new1", at_ := "2026-10-01T00:00:00Z" }]
    (by decide) (by decide) (by decide) (by decide)
  refine ⟨by decide, ?_, ?_, ?_, ?_⟩
  · rw [h.1]
    decide
  · rw [h.2.2.1]
    decide
  · rw [h.2.2.2.1]
    decide
  · exact h.2.2.2.2 { id := "old1", at_ := "2026-05-01T00:00:00Z" } (by decide)
      (by decide)

/-! ## Theorems for C9 -/

/-- Anything of the form `x ++ "Z"` ends with `Z`. -/
theorem pyEndswith_append_Z (x : String) : pyEndswith (x ++ "Z") "Z" = true := by
  have hdata : (x ++ "Z").toList = x.toList ++ ['Z'] := String.data_append x "Z"
  simp [pyEndswith, hdata, List.isPrefixOf]

/-- C9 counterexample: with valid arguments and a 200 response whose body
carries the raw vendor timestamps, the build-details operation returns the
body verbatim — `startDate` stays `20251204T141343+0000`, which does not end
in `Z` and differs from its normalized form `2025-12-04T14:13:43Z` — so the
operation does NOT return the timestamps in normalized UTC ISO-8601 form. -/
theorem C9_timestamp_normalization_counterexample :
    teamcity_get_build_details "https://teamcity.example.com/app/rest" "tok" 42
        { status := 200, body := some c9RawBuild } = .ok (some c9RawBuild) ∧
    c9RawBuild.startDate = "20251204T141343+0000" ∧
    pyEndswith c9RawBuild.startDate "Z" = false ∧
    parse_iso_teamcity "20251204T141343+0000" = "2025-12-04T14:13:43Z" ∧
    c9RawBuild.startDate ≠ parse_iso_teamcity c9RawBuild.startDate := by
  refine ⟨rfl, rfl, by decide, by decide, by decide⟩

/-- C9 amended: `teamcity_get_build_details` returns the vendor body as-is
(any successful non-401/403 response passes `startDate`/`finishDate`
through unmodified); the normalization described by the claim is what
`parse_iso_teamcity` does — and callers must apply it themselves.
`parse_iso_teamcity` maps the empty string and unparseable input to `""`,
parses `YYYYMMDDThhmmss±hhmm` to a UTC ISO-8601 string with `Z` suffix, and
every non-empty output ends in `Z`. -/
theorem C9_timestamp_normalization_amended :
    (∀ rest_base token : String, ∀ build_id : Nat, ∀ resp : TCResponse,
      rest_base ≠ "" → token ≠ "" → build_id ≠ 0 →
      resp.status ≠ 401 → resp.status ≠ 403 → resp.status < 400 →
      teamcity_get_build_details rest_base token build_id resp =
        .ok (some (resp.body.getD {}))) ∧
    parse_iso_teamcity "" = "" ∧
    parse_iso_teamcity "not-a-date" = "" ∧
    parse_iso_teamcity "20251204T141343+0000" = "2025-12-04T14:13:43Z" ∧
    parse_iso_teamcity "20251204T141343+0100" = "2025-12-04T13:13:43Z" ∧
    (∀ s : String, parse_iso_teamcity s = "" ∨
      pyEndswith (parse_iso_teamcity s) "Z" = true) := by
  refine ⟨?_, rfl, by decide, by decide, by decide, ?_⟩
  · intro rb tok id resp hrb htok hid h401 h403 hlt
    unfold teamcity_get_build_details
    rw [if_neg (by push_neg; exact ⟨hrb, htok, hid⟩),
      if_neg (by push_neg; exact ⟨h401, h403⟩),
      if_neg (Nat.not_le.mpr hlt)]
  · intro s
    unfold parse_iso_teamcity
    split
    · exact Or.inl rfl
    · split
      · exact Or.inl rfl
      · dsimp only
        split
        · exact Or.inr (pyEndswith_append_Z _)
        · exact Or.inl rfl

/-- C9 witness: the passthrough clause at a concrete 200 response, and the
Z-suffix clause at the vendor timestamp. -/
theorem C9_timestamp_normalization_witness :
    teamcity_get_build_details "https://teamcity.example.com/app/rest" "tok" 7
        { status := 200, body := some c9RawBuild } = .ok (some c9RawBuild) ∧
    (parse_iso_teamcity "20251204T141343+0000" = "" ∨
      pyEndswith (parse_iso_teamcity "20251204T141343+0000") "Z" = true) := by
  constructor
  · have h := C9_timestamp_normalization_amended.1
      "https://teamcity.example.com/app/rest" "tok" 7
      { status := 200, body := some c9RawBuild }
      (by decide) (by decide) (by decide) (by decide) (by decide) (by decide)
    rw [h]
    rfl
  · exact C9_timestamp_normalization_amended.2.2.2.2.2 "20251204T141343+0000"

/-- C10: every event actually appended by the release-history append path has
a non-empty `id`; consequently, if every record already in the log has a
non-empty `id`, the same holds after `_append_events_to_jsonl`. -/
theorem C10_appended_events_have_ids
    (events_by_project : List (String × List JsonlEvent)) (file : List JsonlEvent)
    (hfile : ∀ e ∈ file, e.id ≠ "") :
    ∀ e ∈ append_events_to_jsonl events_by_project file, e.id ≠ "" := by
  intro e he
  unfold append_events_to_jsonl at he
  set flat := (events_by_project.flatMap (·.2)).filter (fun e => e.id ≠ "") with hflat
  by_cases hne : !flat.isEmpty
  · simp only [← hflat, hne, if_true] at he
    unfold atomic_append_jsonl at he
    rcases List.mem_append.mp he with h | h
    · exact hfile e h
    · have := List.of_mem_filter h
      simpa using this
  · simp only [← hflat, hne, if_false] at he
    exact hfile e he

/-- C10 witness: appending a batch that contains an id-less event to a clean
log lands the id-carrying event in the log, and its `id` is non-empty. -/
theorem C10_appended_events_have_ids_witness :
    (⟨"abc:proj:qa:svc:v1", "kept"⟩ : JsonlEvent) ∈
      append_events_to_jsonl
        [("proj", [⟨"", "dropped"⟩, ⟨"abc:proj:qa:svc:v1", "kept"⟩])]
        [⟨"old:proj:dev:svc:v0", "old"⟩] ∧
    (⟨"abc:proj:qa:svc:v1", "kept"⟩ : JsonlEvent).id ≠ "" := by
  refine ⟨by decide, ?_⟩
  exact C10_appended_events_have_ids
    [("proj", [⟨"", "dropped"⟩, ⟨"abc:proj:qa:svc:v1", "kept"⟩])]
    [⟨"old:proj:dev:svc:v0", "old"⟩]
    (by intro e he; simp at he; simp [he])
    ⟨"abc:proj:qa:svc:v1", "kept"⟩ (by decide)

end WatchTurm
